import Mathlib

/-!
# xgpdf: the continuous-scroll PDF widget of `pdf.go`

A shallow embedding of `continuousPDFWidget` and the helpers it closes over.

* The closure variables `cache`, `currentPage`, `currentTop`, `numInput` and
  `document` form the record `State`; every callback is a function from
  `State` to `State`.
* The C library `libpdf` is a parameter (`Backend`).  Every call into it is
  appended to a log (`State.world`), and the library's answers may depend on
  that log, so stateful and failing backends are covered.
* A Go run-time panic (slice or index out of range) is the result `none`.
* Go `int` is modelled by `Int`.  Wrap-around at 64 bits is modelled where key presses
  alone reach it, in the digit accumulator of `keypress` (`goInt`); the 32-bit conversions
  `C.int(...)` of `LoadPDFPage` are modelled too (`cInt`).  The scroll arithmetic is on
  pixel rows and page numbers and is left unbounded.
* A Go `string` is a sequence of bytes; it is modelled by a list of
  characters, one per byte.  `strings.Split`, slicing and concatenation only
  compare elements with `'@'`, so nothing depends on the alphabet.
* A Go slice of `uint32` is a list of naturals; the `nil` slice is `[]`
  (the source only ever inspects `len`).
* The pattern `tocRe` is a `RegularExpression Char`; its final `$` is part of the model of
  `ReplaceAllString`, which looks for the leftmost suffix that matches.
* The helpers of the toolkit and of the standard library that `main` and `refresh` call
  (`xgw.ParseInt`, `filepath.Base`, the screen size) are parameters, and so is the
  floating-point page height that `main` computes.
-/

namespace Xgpdf

/-! ## Data model -/

/-- Go `string`. -/
abbrev GoString := List Char

/-- The one error value of the package, `ErrLoad`. -/
inductive GoError
  | ErrLoad
  deriving DecidableEq

/-- The type `PDFDocument`, a C pointer: `none` is the nil pointer. -/
abbrev PDFDocument := Option Nat

/-- One call into `libpdf`, with the value it returned where the caller reads it. -/
inductive Event
  | init_pdf_document (filename : GoString) (result : PDFDocument)
  | get_pdf_toc (document : PDFDocument)
  | cleanup_pdf_document (document : PDFDocument)
  | render_pdf_page (document : PDFDocument) (pageNumber width height xoffset ht : Int)
  deriving DecidableEq

/-- The C library behind the cgo calls.  Each answer may depend on the calls made so far. -/
structure Backend where
  /-- Handle returned by `init_pdf_document` (`none` is NULL). -/
  init_pdf_document : List Event → GoString → PDFDocument
  /-- Text returned by `get_pdf_toc` (`none` is NULL). -/
  get_pdf_toc : List Event → PDFDocument → Option GoString
  /-- Return value of `render_pdf_page_to_rgba_with_xoffset`. -/
  render_ht : List Event → PDFDocument → Int → Int → Int → Int → Int
  /-- Word that `render_pdf_page_to_rgba_with_xoffset` leaves at index `k` of the buffer. -/
  render_pix : List Event → PDFDocument → Int → Int → Int → Int → Nat → Nat

/-- The arguments of `continuousPDFWidget` (with `pdfFile` as it stands after line 67). -/
structure Params where
  winWidth : Int
  winHeight : Int
  pageHeight : Int
  xoffset : Int
  title : GoString
  pdfFile : GoString

/-- The mutable variables the callbacks close over, and the log of backend calls. -/
structure State where
  document : PDFDocument
  cache : Int → Option (List Nat)
  currentPage : Int
  currentTop : Int
  numInput : Int
  world : List Event

/-- The toolkit's pixel image, `xgw.RGBAData`. -/
structure RGBAData where
  Pix : List Nat
  Stride : Int
  Width : Int
  Height : Int
  deriving DecidableEq

/-- What is handed to `XDraw`: an image as it is, or the call `xgw.Crop(d, x, y, w, h)`. -/
inductive Image
  | plain (d : RGBAData)
  | Crop (d : RGBAData) (x y w h : Int)
  deriving DecidableEq

/-- One call `ximg.XDraw(img, x, y)`. -/
structure XDrawCall where
  img : Image
  x : Int
  y : Int
  deriving DecidableEq

/-- The drawing surface, as the list of `XDraw` calls made on it. -/
abbrev XImage := List XDrawCall

/-- A Go `int` (64 bits, two's complement): the value an arithmetic result wraps to. -/
def goInt (x : Int) : Int := (x + 9223372036854775808) % 18446744073709551616 - 9223372036854775808

/-- The conversion `C.int(x)` of a Go `int`: the low 32 bits, read as a signed number. -/
def cInt (x : Int) : Int := (x + 2147483648) % 4294967296 - 2147483648

/-- Line 71: `pageGap`. -/
def pageGap : Int := 30

/-- Line 71: `positionDelta`. -/
def positionDelta : Int := 200

/-! ## Backend wrappers (lines 20-33) -/

/-- Lines 20-26, `initPDFFile`: the result triple and the extended log. -/
def initPDFFile (B : Backend) (w : List Event) (filename : GoString) :
    (PDFDocument × GoString × Option GoError) × List Event :=
  let document := B.init_pdf_document w filename
  let w1 := w ++ [Event.init_pdf_document filename document]
  match document with
  | none => ((none, [], some GoError.ErrLoad), w1)
  | some d =>
    let tocCStr := B.get_pdf_toc w1 (some d)
    ((some d, tocCStr.getD [], none), w1 ++ [Event.get_pdf_toc (some d)])

/-- Line 27, `closePDF`. -/
def closePDF (w : List Event) (document : PDFDocument) : List Event :=
  w ++ [Event.cleanup_pdf_document document]

/-- Lines 29-33, `LoadPDFPage`.  `make` panics on a negative length and `&buffer[0]` on an empty
buffer, so the call panics unless `width*height` is positive.  The backend receives, and the log
records, the arguments after their conversion `C.int(...)`. -/
def LoadPDFPage (B : Backend) (w : List Event) (document : PDFDocument)
    (pageNumber width height xoffset : Int) :
    Option ((List Nat × Int × Option GoError) × List Event) :=
  if width * height ≤ 0 then none
  else
    let ht := B.render_ht w document (cInt pageNumber) (cInt width) (cInt height) (cInt xoffset)
    let buffer := (List.range (width * height).toNat).map
      (fun k => B.render_pix w document (cInt pageNumber) (cInt width) (cInt height)
        (cInt xoffset) k % 2 ^ 32)
    let err := if ht = 0 then some GoError.ErrLoad else none
    some ((buffer, ht, err),
      w ++ [Event.render_pdf_page document (cInt pageNumber) (cInt width) (cInt height)
              (cInt xoffset) ht])

/-! ## The callbacks of `continuousPDFWidget` (lines 66-146) -/

/-- Line 72: `gapImg`. -/
def gapImg (g : Params) : RGBAData :=
  { Pix := List.replicate (g.winWidth * pageGap).toNat 0,
    Stride := g.winWidth * 4, Width := g.winWidth, Height := pageGap }

/-- Lines 73-77: `load`. -/
def load (g : Params) (B : Backend) (i : Int) (s : State) : Option (List Nat × State) :=
  match s.cache i with
  | some data => some (data, s)
  | none =>
    match LoadPDFPage B s.world s.document i g.winWidth g.pageHeight (-g.xoffset) with
    | none => none
    | some ((data, ht, err), w1) =>
      if ht > 0 ∧ err = none then
        some (data, { s with cache := fun j => if j = i then some data else s.cache j,
                             world := w1 })
      else some ([], { s with world := w1 })

/-- Lines 78-92: `paintPage`. -/
def paintPage (g : Params) (B : Backend) (ximg : XImage) (i verticalShift : Int) (s : State) :
    Option (Int × XImage × State) :=
  if verticalShift ≥ g.pageHeight then some (0, ximg, s)
  else
    match load g B i s with
    | none => none
    | some (pix, s1) =>
      let data : RGBAData :=
        { Pix := pix, Stride := g.winWidth * 4, Width := g.winWidth, Height := g.pageHeight }
      if data.Pix.length = 0 then some (0, ximg, s1)
      else
        let dataHeight := g.pageHeight
        if verticalShift ≥ 0 then
          let paintHeight :=
            if verticalShift + dataHeight > g.winHeight then dataHeight - verticalShift
            else dataHeight
          some (dataHeight,
            ximg ++ [{ img := Image.Crop data 0 0 g.winWidth paintHeight, x := 0,
                       y := verticalShift }], s1)
        else if dataHeight + verticalShift > 0 then
          let paintHeight := dataHeight + verticalShift
          let paintHeight := if paintHeight > g.winHeight then g.winHeight else paintHeight
          some (dataHeight,
            ximg ++ [{ img := Image.Crop data 0 (-verticalShift) g.winWidth paintHeight,
                       x := 0, y := 0 }], s1)
        else some (dataHeight, ximg, s1)

/-- Lines 94-95: the two clamps at the head of `paint`. -/
def paintClamp (s : State) : State :=
  let s := if s.currentTop < 0 then { s with currentTop := 0 } else s
  if s.currentPage < 0 then { s with currentPage := 0, currentTop := 0 } else s

/-- Lines 93-101: `paint`. -/
def paint (g : Params) (B : Backend) (ximg : XImage) (s : State) :
    Option ((Int × Int) × XImage × State) :=
  let s := paintClamp s
  match paintPage g B ximg s.currentPage (-s.currentTop) s with
  | none => none
  | some (ht, ximg1, s1) =>
    if ht ≥ 0 ∧ ht + pageGap - s1.currentTop < g.winHeight then
      let ximg2 := ximg1 ++ [{ img := Image.plain (gapImg g), x := 0, y := ht - s1.currentTop }]
      match paintPage g B ximg2 (s1.currentPage + 1) (-s1.currentTop + ht + pageGap) s1 with
      | none => none
      | some (_, ximg3, s2) => some ((0, 0), ximg3, s2)
    else some ((0, 0), ximg1, s1)

/-- Lines 102-111: `updatePosition`. -/
def updatePosition (g : Params) (B : Backend) (delta : Int) (s : State) : Option State :=
  let s := { s with currentTop := s.currentTop + delta }
  if s.currentTop > g.pageHeight then
    some { s with currentPage := s.currentPage + 1, currentTop := s.currentTop - g.pageHeight }
  else if s.currentTop < 0 then
    match load g B (s.currentPage - 1) s with
    | none => none
    | some (_, s1) =>
      some { s1 with currentPage := s1.currentPage - 1,
                     currentTop := g.pageHeight + s1.currentTop }
  else some s

/-- Lines 112-119: `button` (`detail` is a byte; `x`, `y` are not read). -/
def button (g : Params) (B : Backend) (detail : Nat) (_x _y : Int) (s : State) :
    Option (Int × State) :=
  if detail = 4 then (updatePosition g B (-positionDelta) s).map (fun s1 => (1, s1))
  else if detail = 5 then (updatePosition g B positionDelta s).map (fun s1 => (1, s1))
  else some (0, s)

/-- Go `strings.Split(s, sep)` for a one-byte separator: the pieces between the
occurrences of `sep`, one more than there are occurrences. -/
def stringsSplit (sep : Char) : GoString → List GoString
  | [] => [[]]
  | c :: cs =>
    if c = sep then [] :: stringsSplit sep cs
    else
      match stringsSplit sep cs with
      | [] => [[c]]
      | p :: ps => (c :: p) :: ps

/-- Lines 120-128: `refresh`.  `ParseInt` is `xgw.ParseInt`, from the toolkit.
`str[:len(str)-1]` panics on the empty string. -/
def refresh (g : Params) (B : Backend) (ParseInt : GoString → Int) (str : GoString)
    (s : State) : Option State :=
  if str.length = 0 then none
  else
    let parts := stringsSplit '@' (str.take (str.length - 1))
    if parts.length < 2 then
      let w1 := closePDF s.world s.document
      let r := initPDFFile B w1 g.pdfFile
      some { s with document := r.1.1, cache := fun _ => none, world := r.2 }
    else some { s with currentPage := ParseInt (parts.getD 1 []), currentTop := 0 }

/-- Lines 129-143: `keypress` (`detail` is a byte, so `detail + 1` is taken modulo 256; the
accumulator is a Go `int`, so the digit case wraps at 64 bits). -/
def keypress (g : Params) (B : Backend) (detail : Nat) (s : State) : Option (Int × State) :=
  if 10 ≤ detail ∧ detail ≤ 19 then
    some (0, { s with
      numInput := goInt (s.numInput * 10 + (((detail + 1) % 256 : Nat) : Int) % 10) })
  else if detail = 24 then some (-1, s)
  else if detail = 36 then
    if s.numInput > 0 then
      match load g B s.numInput s with
      | none => none
      | some (data, s1) =>
        let s2 := if data.length > 0 then { s1 with currentPage := s1.numInput, currentTop := 0 }
                  else s1
        some (1, { s2 with numInput := 0 })
    else some (0, s)
  else if detail = 30 then (updatePosition g B (-3 * positionDelta) s).map (fun s1 => (1, s1))
  else if detail = 40 then (updatePosition g B (3 * positionDelta) s).map (fun s1 => (1, s1))
  else if detail = 111 then (updatePosition g B (-2 * positionDelta) s).map (fun s1 => (1, s1))
  else if detail = 116 then (updatePosition g B (2 * positionDelta) s).map (fun s1 => (1, s1))
  else if detail = 113 then (updatePosition g B (-positionDelta) s).map (fun s1 => (1, s1))
  else if detail = 114 then (updatePosition g B positionDelta s).map (fun s1 => (1, s1))
  else some (0, s)

/-- Lines 68-71: the state in which the callbacks are first run, when the document opens. -/
def initialState (g : Params) (B : Backend) : Option State :=
  match initPDFFile B [] g.pdfFile with
  | ((document, _, none), w) =>
    some { document := document, cache := fun _ => none, currentPage := 0, currentTop := 0,
           numInput := 0, world := w }
  | ((_, _, some _), _) => none

/-! ## Runs of callbacks -/

/-- A run of `updatePosition` calls, one per delta: the state after each call, in order. -/
def scrollRun (g : Params) (B : Backend) : List Int → State → Option (List State)
  | [], _ => some []
  | d :: ds, s =>
    match updatePosition g B d s with
    | none => none
    | some s1 =>
      match scrollRun g B ds s1 with
      | none => none
      | some rest => some (s1 :: rest)

/-- A run of `load` calls, one per page index: the final state. -/
def loadRun (g : Params) (B : Backend) : List Int → State → Option State
  | [], s => some s
  | i :: is, s =>
    match load g B i s with
    | none => none
    | some (_, s1) => loadRun g B is s1

/-! ## Vocabulary for the statements -/

/-- The pair `(currentPage, currentTop)`. -/
def State.pos (s : State) : Int × Int := (s.currentPage, s.currentTop)

/-- The height the backend reports when `load i` has to render page `i` in state `s`. -/
def renderHt (g : Params) (B : Backend) (s : State) (i : Int) : Int :=
  B.render_ht s.world s.document (cInt i) (cInt g.winWidth) (cInt g.pageHeight)
    (cInt (-g.xoffset))

/-- The height the backend reports in state `s` when it is asked for its page `p`, with the
session's geometry. -/
def backendHt (g : Params) (B : Backend) (s : State) (p : Int) : Int :=
  B.render_ht s.world s.document p (cInt g.winWidth) (cInt g.pageHeight) (cInt (-g.xoffset))

/-- The buffer `LoadPDFPage` hands back when `load i` has to render page `i` in state `s`. -/
def renderBuffer (g : Params) (B : Backend) (s : State) (i : Int) : List Nat :=
  (List.range (g.winWidth * g.pageHeight).toNat).map
    (fun k => B.render_pix s.world s.document (cInt i) (cInt g.winWidth) (cInt g.pageHeight)
      (cInt (-g.xoffset)) k % 2 ^ 32)

/-- The log entry of the render call that `load i` makes in state `s`. -/
def renderEvent (g : Params) (B : Backend) (s : State) (i : Int) : Event :=
  Event.render_pdf_page s.document (cInt i) (cInt g.winWidth) (cInt g.pageHeight)
    (cInt (-g.xoffset)) (renderHt g B s i)

/-- A Go `int` that the conversion `C.int` leaves as it is: a signed 32-bit value. -/
def FitsCInt (x : Int) : Prop := -2147483648 ≤ x ∧ x < 2147483648

/-- A Go `int` result that does not wrap: a signed 64-bit value. -/
def FitsGoInt (x : Int) : Prop := -9223372036854775808 ≤ x ∧ x < 9223372036854775808

instance (x : Int) : Decidable (FitsCInt x) := by
  unfold FitsCInt
  infer_instance

instance (x : Int) : Decidable (FitsGoInt x) := by
  unfold FitsGoInt
  infer_instance

/-- A log entry that is a render call for page `i` which `load` accepts (positive height). -/
def Event.isRenderOk (i : Int) : Event → Bool
  | Event.render_pdf_page _ p _ _ _ ht => decide (p = i ∧ 0 < ht)
  | _ => false

/-- Every cache entry is a buffer of the session's page geometry (spec, section 3). -/
def CacheValid (g : Params) (s : State) : Prop :=
  ∀ i d, s.cache i = some d → d.length = (g.winWidth * g.pageHeight).toNat

/-! ## Test fixtures -/

/-- A backend that opens every file and renders every page at full height. -/
def okBackend : Backend :=
  { init_pdf_document := fun _ _ => some 1,
    get_pdf_toc := fun _ _ => none,
    render_ht := fun _ _ _ _ h _ => h,
    render_pix := fun _ _ p _ _ _ k => p.toNat + k }

/-- A backend for a document of 100 pages: it renders the pages 0..99 and no other. -/
def hundredPages : Backend :=
  { init_pdf_document := fun _ _ => some 1,
    get_pdf_toc := fun _ _ => none,
    render_ht := fun _ _ p _ h _ => if 0 ≤ p ∧ p < 100 then h else 0,
    render_pix := fun _ _ p _ _ _ k => p.toNat + k }

/-- A backend that opens every file and fails to render every page. -/
def failBackend : Backend :=
  { init_pdf_document := fun _ _ => some 1,
    get_pdf_toc := fun _ _ => none,
    render_ht := fun _ _ _ _ _ _ => 0,
    render_pix := fun _ _ _ _ _ _ _ => 0 }

/-- A small geometry: pages 2 wide and 10 high in a window 8 high. -/
def smallParams : Params :=
  { winWidth := 2, winHeight := 8, pageHeight := 10, xoffset := 0, title := [], pdfFile := [] }

/-- The state at `(currentPage, currentTop)` with an empty cache and accumulator 0. -/
def stateAt (page top : Int) : State :=
  { document := some 1, cache := fun _ => none, currentPage := page, currentTop := top,
    numInput := 0, world := [] }

/-- A stand-in for `xgw.ParseInt` (fixture for examples): the value of a non-empty string of
decimal digits, and 0 for any other string. -/
def parseDecimal (str : GoString) : Int :=
  if str ≠ [] ∧ str.all Char.isDigit = true then
    str.foldl (fun acc c => acc * 10 + ((c.toNat - 48 : Nat) : Int)) 0
  else 0

/-- A small geometry whose window is taller than a page: pages 2 by 10, window 100 high. -/
def tallParams : Params :=
  { winWidth := 2, winHeight := 100, pageHeight := 10, xoffset := 0, title := [], pdfFile := [] }

/-- A geometry with pages higher than the gap: pages 1 by 40, window 100 high. -/
def gapParams : Params :=
  { winWidth := 1, winHeight := 100, pageHeight := 40, xoffset := 0, title := [], pdfFile := [] }

/-! ## Further vocabulary: determinism, key runs -/

/-- A backend whose render answers depend on the arguments of the call only, not on the calls
made before. -/
def Backend.Deterministic (B : Backend) : Prop :=
  ∀ (w w2 : List Event) (doc : PDFDocument) (p wd h x : Int),
    B.render_ht w doc p wd h x = B.render_ht w2 doc p wd h x ∧
    ∀ k, B.render_pix w doc p wd h x k = B.render_pix w2 doc p wd h x k

/-- The value `paintPage` returns and the `XDraw` calls it makes once `load` has handed it the
pixels `pix` (lines 81-91). -/
def pageOps (g : Params) (pix : List Nat) (verticalShift : Int) : Int × List XDrawCall :=
  let data : RGBAData :=
    { Pix := pix, Stride := g.winWidth * 4, Width := g.winWidth, Height := g.pageHeight }
  if pix.length = 0 then (0, [])
  else if verticalShift ≥ 0 then
    (g.pageHeight,
      [{ img := Image.Crop data 0 0 g.winWidth
                  (if verticalShift + g.pageHeight > g.winHeight then g.pageHeight - verticalShift
                   else g.pageHeight),
         x := 0, y := verticalShift }])
  else if g.pageHeight + verticalShift > 0 then
    (g.pageHeight,
      [{ img := Image.Crop data 0 (-verticalShift) g.winWidth
                  (if g.pageHeight + verticalShift > g.winHeight then g.winHeight
                   else g.pageHeight + verticalShift),
         x := 0, y := 0 }])
  else (g.pageHeight, [])

/-- A run of `keypress` calls, one per key code: the final state. -/
def keyRun (g : Params) (B : Backend) : List Nat → State → Option State
  | [], s => some s
  | k :: ks, s =>
    match keypress g B k s with
    | none => none
    | some (_, s1) => keyRun g B ks s1

/-- The key code of a decimal digit: codes 10..18 are the digits 1..9, code 19 is 0. -/
def digitKey (d : Nat) : Nat := if d = 0 then 19 else 9 + d

/-- The key codes typed for the number `n`: its decimal digits, most significant first. -/
def digitKeys (n : Nat) : List Nat := ((Nat.digits 10 n).reverse).map digitKey

/-! ## The table of contents (lines 18, 49-64) -/

/-- The regular expression that matches exactly the string `str`. -/
def reLit : GoString → RegularExpression Char
  | [] => 1
  | c :: cs => RegularExpression.char c * reLit cs

/-- The regular expression `[...]`: one character out of `cs`. -/
def reOneOf : List Char → RegularExpression Char
  | [] => 0
  | c :: cs => RegularExpression.char c + reOneOf cs

/-- The characters of the class `\d`. -/
def tocDigits : List Char := "0123456789".toList

/-- The characters of the class `[A-Za-z]`. -/
def tocLetters : List Char := "ABCDEFGHIJKLMNOPQRSTUVWXYZabcdefghijklmnopqrstuvwxyz".toList

/-- The class `\d`. -/
def reDigit : RegularExpression Char := reOneOf tocDigits

/-- The class `[A-Za-z]`. -/
def reAlpha : RegularExpression Char := reOneOf tocLetters

/-- The five keywords of `tocRe`. -/
def tocKeywords : List GoString :=
  ["appendix".toList, "section".toList, "subsection".toList, "subsubsection".toList,
    "chapter".toList]

/-- Line 18: `tocRe`, without its final `$`:
`(?:appendix|section|subsection|subsubsection|chapter)\*?\d*(?:\.\d*[A-Za-z]*)*`. -/
def tocRe : RegularExpression Char :=
  (reLit "appendix".toList + reLit "section".toList + reLit "subsection".toList
      + reLit "subsubsection".toList + reLit "chapter".toList)
    * (RegularExpression.char '*' + 1)
    * RegularExpression.star reDigit
    * RegularExpression.star
        (RegularExpression.char '.' * RegularExpression.star reDigit
          * RegularExpression.star reAlpha)

/-- A heading marker in words: one of the five keywords, then an optional `'*'`, then digits,
then any number of groups made of a dot, digits and letters. -/
def IsHeadingMarker (m : GoString) : Prop :=
  ∃ (kw star ds : GoString) (groups : List GoString), kw ∈ tocKeywords ∧ (star = [] ∨ star = ['*']) ∧
    (∀ c ∈ ds, c ∈ tocDigits) ∧
    (∀ gr ∈ groups, ∃ d l, gr = '.' :: (d ++ l) ∧ (∀ c ∈ d, c ∈ tocDigits) ∧
      (∀ c ∈ l, c ∈ tocLetters)) ∧
    m = kw ++ star ++ ds ++ groups.flatten

/-- Go `re.ReplaceAllString(src, "")` for a pattern `re$`.  A match has to end where the text
ends, so the leftmost match starts at the first position whose whole suffix matches `re`, and
replacing it by the empty string leaves the text before that position. -/
def ReplaceAllString (re : RegularExpression Char) : GoString → GoString
  | [] => []
  | c :: cs => if re.rmatch (c :: cs) then [] else c :: ReplaceAllString re cs

/-- The toolkit's `xgw.Pair[string]`. -/
structure Pair where
  Key : GoString
  Value : GoString
  deriving DecidableEq

/-- Lines 54-58: the loop body of `tableOfContentWidget` over the items of the split text. -/
def tocItems : List GoString → List Pair
  | [] => []
  | item :: rest =>
    let pair := stringsSplit '@' item
    if pair.length < 2 then tocItems rest
    else { Key := ReplaceAllString tocRe (pair.getD 0 []), Value := pair.getD 1 [] }
           :: tocItems rest

/-- Lines 54-58: `duState.List` as `tableOfContentWidget` builds it from `toc`. -/
def tocList (toc : GoString) : List Pair := tocItems (stringsSplit '\n' toc)

/-- Lines 59-63: the selection callback of the list widget: the window name it sets, or `none`
when the cursor is outside the list. -/
def tocSelect (title : GoString) (list : List Pair) (cursor : Int) : Option GoString :=
  if cursor < 0 ∨ cursor ≥ list.length then none
  else some (title ++ "@".toList ++ (list.getD cursor.toNat { Key := [], Value := [] }).Value
              ++ "*".toList)

/-! ## The command line (lines 148-160) -/

/-- What `main` takes from outside the package: `xgw.ParseInt`, the screen size `xgw.Width`,
`xgw.Height`, `filepath.Base`, and the floating-point expression
`int(float64(pageWidth)*100.0/float64(aspect))`, kept abstract. -/
structure Host where
  ParseInt : GoString → Int
  Width : Int
  Height : Int
  Base : GoString → GoString
  pageHeightOf : Int → Int → Int

/-- The local variables of `main` at line 159 and the arguments of its call of
`continuousPDFWidget`. -/
structure WidgetCall where
  pageWidth : Int
  winHeight : Int
  aspect : Int
  xoffset : Int
  pageHeight : Int
  title : GoString
  pdfFile : GoString
  deriving DecidableEq

/-- Lines 148-160: `main` on the argument vector `os.Args`; `none` when it returns at line 151
without opening anything.  Go's `/` on `int` truncates. -/
def main (H : Host) (Args : List GoString) : Option WidgetCall :=
  if Args.length ≤ 1 then none
  else
    let action :=
      if Args.length < 6 then
        [Args.getD 1 [], "1750".toList, "1600".toList, "72".toList, "46".toList]
      else Args
    let pageWidth := H.ParseInt (action.getD 1 [])
    let winHeight := H.ParseInt (action.getD 2 [])
    let aspect := H.ParseInt (action.getD 3 [])
    let xoffset := H.ParseInt (action.getD 4 [])
    let pageWidth := if pageWidth < 100 then Int.tdiv (H.Width * 7) 10 else pageWidth
    let winHeight := if winHeight < 100 then H.Height - 40 else winHeight
    let aspect := if aspect < 1 then 80 else aspect
    some { pageWidth := pageWidth, winHeight := winHeight, aspect := aspect, xoffset := xoffset,
           pageHeight := H.pageHeightOf pageWidth aspect,
           title := "auto-pdf-".toList ++ H.Base (action.getD 0 []),
           pdfFile := action.getD 0 [] }

/-- A host for examples: decimal parsing, a 1920 by 1080 screen, file names kept as they are,
and exact truncated division for the page height. -/
def testHost : Host :=
  { ParseInt := parseDecimal, Width := 1920, Height := 1080, Base := fun p => p,
    pageHeightOf := fun w a => Int.tdiv (w * 100) a }

/-! ## Shared lemmas and the scroll claims -/

theorem cInt_of_fits (x : Int) (h : FitsCInt x) : cInt x = x := by
  unfold FitsCInt at h
  unfold cInt
  omega

theorem goInt_of_fits (x : Int) (h : FitsGoInt x) : goInt x = x := by
  unfold FitsGoInt at h
  unfold goInt
  omega

theorem LoadPDFPage_eq (B : Backend) (w : List Event) (doc : PDFDocument) (p wd h x : Int)
    (hg : 0 < wd * h) :
    LoadPDFPage B w doc p wd h x =
      some (((List.range (wd * h).toNat).map
               (fun k => B.render_pix w doc (cInt p) (cInt wd) (cInt h) (cInt x) k % 2 ^ 32),
             B.render_ht w doc (cInt p) (cInt wd) (cInt h) (cInt x),
             if B.render_ht w doc (cInt p) (cInt wd) (cInt h) (cInt x) = 0
               then some GoError.ErrLoad else none),
            w ++ [Event.render_pdf_page doc (cInt p) (cInt wd) (cInt h) (cInt x)
                    (B.render_ht w doc (cInt p) (cInt wd) (cInt h) (cInt x))]) := by
  unfold LoadPDFPage
  rw [if_neg (not_le.mpr hg)]

theorem load_frame (g : Params) (B : Backend) (i : Int) (s : State)
    (hg : 0 < g.winWidth * g.pageHeight) :
    ∃ d s1, load g B i s = some (d, s1) ∧ s1.currentPage = s.currentPage ∧
      s1.currentTop = s.currentTop ∧ s1.numInput = s.numInput ∧ s1.document = s.document := by
  unfold load
  cases hc : s.cache i with
  | some data => exact ⟨data, s, rfl, rfl, rfl, rfl, rfl⟩
  | none =>
    simp only [LoadPDFPage_eq B _ _ _ _ _ _ hg]
    split_ifs
    all_goals exact ⟨_, _, rfl, rfl, rfl, rfl, rfl⟩

theorem updatePosition_spec (g : Params) (B : Backend) (d : Int) (s : State)
    (hg : 0 < g.winWidth * g.pageHeight) :
    ∃ s1, updatePosition g B d s = some s1 ∧ s1.numInput = s.numInput ∧
      s1.document = s.document ∧
      (g.pageHeight < s.currentTop + d →
        s1.currentPage = s.currentPage + 1 ∧ s1.currentTop = s.currentTop + d - g.pageHeight) ∧
      (¬ g.pageHeight < s.currentTop + d → s.currentTop + d < 0 →
        s1.currentPage = s.currentPage - 1 ∧ s1.currentTop = g.pageHeight + (s.currentTop + d)) ∧
      (¬ g.pageHeight < s.currentTop + d → ¬ s.currentTop + d < 0 →
        s1.currentPage = s.currentPage ∧ s1.currentTop = s.currentTop + d) := by
  unfold updatePosition
  by_cases h1 : g.pageHeight < s.currentTop + d
  · simp [h1]
  · by_cases h2 : s.currentTop + d < 0
    · obtain ⟨dd, s1, hl, hp, ht, hn, hd⟩ :=
        load_frame g B (s.currentPage - 1) { s with currentTop := s.currentTop + d } hg
      simp only [gt_iff_lt, h1, if_false, h2, if_true]
      simp only [hl]
      refine ⟨_, rfl, ?_, ?_, ?_, ?_, ?_⟩ <;> simp_all
    · simp [h1, h2]

theorem updatePosition_offset (g : Params) (B : Backend) (d : Int) (s : State)
    (hg : 0 < g.winWidth * g.pageHeight) :
    ∃ s1, updatePosition g B d s = some s1 ∧
      s1.currentPage * g.pageHeight + s1.currentTop =
        s.currentPage * g.pageHeight + s.currentTop + d := by
  obtain ⟨s1, h, -, -, ha, hb, hc⟩ := updatePosition_spec g B d s hg
  refine ⟨s1, h, ?_⟩
  by_cases h1 : g.pageHeight < s.currentTop + d
  · obtain ⟨hp, ht⟩ := ha h1
    rw [hp, ht]; ring
  · by_cases h2 : s.currentTop + d < 0
    · obtain ⟨hp, ht⟩ := hb h1 h2
      rw [hp, ht]; ring
    · obtain ⟨hp, ht⟩ := hc h1 h2
      rw [hp, ht]; ring

theorem scrollRun_bounds (g : Params) (B : Backend) (hg : 0 < g.winWidth * g.pageHeight) :
    ∀ (ds : List Int) (s : State), 0 ≤ s.currentTop → s.currentTop ≤ g.pageHeight →
      (∀ d ∈ ds, -g.pageHeight ≤ d ∧ d ≤ g.pageHeight) →
      ∃ states, scrollRun g B ds s = some states ∧ states.length = ds.length ∧
        (∀ t ∈ states, 0 ≤ t.currentTop ∧ t.currentTop ≤ g.pageHeight) ∧
        (0 ≤ s.currentPage →
          (∀ j, j ≤ ds.length →
            0 ≤ s.currentPage * g.pageHeight + s.currentTop + (ds.take j).sum) →
          ∀ t ∈ states, 0 ≤ t.currentPage) := by
  intro ds
  induction ds with
  | nil =>
    intro s _ _ _
    exact ⟨[], rfl, rfl, by simp, by simp⟩
  | cons d ds ih =>
    intro s h0 h1 hd
    obtain ⟨s1, hs1, -, -, ha, hb, hc⟩ := updatePosition_spec g B d s hg
    obtain ⟨-, hoff⟩ : True ∧ s1.currentPage * g.pageHeight + s1.currentTop =
        s.currentPage * g.pageHeight + s.currentTop + d := by
      obtain ⟨s1', hs1', ho⟩ := updatePosition_offset g B d s hg
      rw [hs1] at hs1'
      cases hs1'
      exact ⟨trivial, ho⟩
    have hdb := hd d (List.mem_cons_self d ds)
    have htop : 0 ≤ s1.currentTop ∧ s1.currentTop ≤ g.pageHeight := by
      by_cases c1 : g.pageHeight < s.currentTop + d
      · have := ha c1; omega
      · by_cases c2 : s.currentTop + d < 0
        · have := hb c1 c2; omega
        · have := hc c1 c2; omega
    obtain ⟨rest, hrest, hlen, hbd, hpg⟩ :=
      ih s1 htop.1 htop.2 (fun x hx => hd x (List.mem_cons_of_mem d hx))
    refine ⟨s1 :: rest, ?_, ?_, ?_, ?_⟩
    · simp [scrollRun, hs1, hrest]
    · simp [hlen]
    · intro t ht
      rcases List.mem_cons.mp ht with rfl | ht
      · exact htop
      · exact hbd t ht
    · intro hp hsum
      have hsum1 : 0 ≤ s.currentPage * g.pageHeight + s.currentTop + d := by
        have := hsum 1 (by simp)
        simpa using this
      have hp1 : 0 ≤ s1.currentPage := by
        by_cases c1 : g.pageHeight < s.currentTop + d
        · have := ha c1; omega
        · by_cases c2 : s.currentTop + d < 0
          · have h3 := hb c1 c2
            have hpos : 0 < s.currentPage := by
              rcases lt_or_eq_of_le hp with h | h
              · exact h
              · rw [← h] at hsum1; simp at hsum1; omega
            omega
          · have := hc c1 c2; omega
      have hsum2 : ∀ j, j ≤ ds.length →
          0 ≤ s1.currentPage * g.pageHeight + s1.currentTop + (ds.take j).sum := by
        intro j hj
        have := hsum (j + 1) (by simp; omega)
        rw [hoff]
        simp only [List.take_succ_cons, List.sum_cons] at this
        omega
      intro t ht
      rcases List.mem_cons.mp ht with rfl | ht
      · exact hp1
      · exact hpg hp1 hsum2 t ht

/-- C1 (amended): starting from `(currentPage, currentTop) = (0, 0)`, for every
`pageHeight > 0` (and `winWidth > 0`, so that a render call is possible) and every finite
sequence of deltas with `-pageHeight ≤ delta ≤ pageHeight`, every `updatePosition` call returns
and after each call `0 ≤ currentTop ≤ pageHeight`; if moreover no running total of the deltas is
negative, `currentPage ≥ 0` after each call. -/
theorem scroll_invariant_bounded (g : Params) (B : Backend) (ds : List Int) (s0 : State)
    (hH : 0 < g.pageHeight) (hW : 0 < g.winWidth)
    (hstart : s0.currentPage = 0 ∧ s0.currentTop = 0)
    (hd : ∀ d ∈ ds, -g.pageHeight ≤ d ∧ d ≤ g.pageHeight) :
    ∃ states, scrollRun g B ds s0 = some states ∧ states.length = ds.length ∧
      (∀ t ∈ states, 0 ≤ t.currentTop ∧ t.currentTop ≤ g.pageHeight) ∧
      ((∀ j, j ≤ ds.length → 0 ≤ (ds.take j).sum) → ∀ t ∈ states, 0 ≤ t.currentPage) := by
  obtain ⟨states, h1, h2, h3, h4⟩ :=
    scrollRun_bounds g B (mul_pos hW hH) ds s0 (by omega) (by omega) hd
  refine ⟨states, h1, h2, h3, fun hs => h4 (by omega) ?_⟩
  intro j hj
  have := hs j hj
  rw [hstart.1, hstart.2]
  simpa using this

/-- Witness for C1 (amended): the run `7, 7, -10, 3` on pages of height 10. -/
theorem scroll_invariant_bounded_witness :
    ∃ states, scrollRun smallParams okBackend [7, 7, -10, 3] (stateAt 0 0) = some states ∧
      states.length = 4 ∧
      (∀ t ∈ states, 0 ≤ t.currentTop ∧ t.currentTop ≤ 10) ∧
      ((∀ j, j ≤ 4 → 0 ≤ (([7, 7, -10, 3] : List Int).take j).sum) →
        ∀ t ∈ states, 0 ≤ t.currentPage) :=
  scroll_invariant_bounded smallParams okBackend [7, 7, -10, 3] (stateAt 0 0)
    (by decide) (by decide) ⟨rfl, rfl⟩ (by decide)

/-- C1 fails as stated: from `(0, 0)` with `pageHeight = 10`, one call with delta `-1` ends on
page `-1`; delta `10` ends with `currentTop = pageHeight`; delta `25` ends with
`currentTop = 15 > pageHeight`; delta `-25` ends with `currentTop = -15 < 0`. -/
theorem scroll_invariant_counterexample :
    0 < smallParams.pageHeight ∧
    (∃ t, scrollRun smallParams okBackend [-1] (stateAt 0 0) = some [t] ∧ t.pos = (-1, 9) ∧
      ¬ 0 ≤ t.currentPage) ∧
    (∃ t, scrollRun smallParams okBackend [10] (stateAt 0 0) = some [t] ∧ t.pos = (0, 10) ∧
      ¬ t.currentTop < smallParams.pageHeight) ∧
    (∃ t, scrollRun smallParams okBackend [25] (stateAt 0 0) = some [t] ∧ t.pos = (1, 15) ∧
      ¬ t.currentTop < smallParams.pageHeight) ∧
    (∃ t, scrollRun smallParams okBackend [-25] (stateAt 0 0) = some [t] ∧ t.pos = (-1, -15) ∧
      ¬ 0 ≤ t.currentTop) :=
  ⟨by decide, ⟨_, rfl, rfl, by decide⟩, ⟨_, rfl, rfl, by decide⟩, ⟨_, rfl, rfl, by decide⟩,
    ⟨_, rfl, rfl, by decide⟩⟩

theorem paintPage_frame (g : Params) (B : Backend) (ximg : XImage) (i v : Int) (s : State)
    (hg : 0 < g.winWidth * g.pageHeight) :
    ∃ r, paintPage g B ximg i v s = some r ∧ r.2.2.currentPage = s.currentPage ∧
      r.2.2.currentTop = s.currentTop ∧ r.2.2.numInput = s.numInput ∧
      r.2.2.document = s.document := by
  unfold paintPage
  obtain ⟨d, s1, hl, hp, ht, hn, hd⟩ := load_frame g B i s hg
  simp only [hl]
  split_ifs
  all_goals exact ⟨_, rfl, by simp [hp], by simp [ht], by simp [hn], by simp [hd]⟩

theorem load_frame_of_some (g : Params) (B : Backend) (i : Int) (s s1 : State) (d : List Nat)
    (hl : load g B i s = some (d, s1)) :
    s1.currentPage = s.currentPage ∧ s1.currentTop = s.currentTop ∧
      s1.numInput = s.numInput ∧ s1.document = s.document := by
  unfold load at hl
  cases hc : s.cache i with
  | some data =>
    simp only [hc, Option.some.injEq, Prod.mk.injEq] at hl
    obtain ⟨-, rfl⟩ := hl
    exact ⟨rfl, rfl, rfl, rfl⟩
  | none =>
    simp only [hc] at hl
    cases hL : LoadPDFPage B s.world s.document i g.winWidth g.pageHeight (-g.xoffset) with
    | none => simp [hL] at hl
    | some res =>
      obtain ⟨⟨data, ht, err⟩, w1⟩ := res
      simp only [hL] at hl
      split_ifs at hl
      all_goals
        simp only [Option.some.injEq, Prod.mk.injEq] at hl
        obtain ⟨-, rfl⟩ := hl
        exact ⟨rfl, rfl, rfl, rfl⟩

theorem paint_frame (g : Params) (B : Backend) (ximg : XImage) (s : State)
    (hg : 0 < g.winWidth * g.pageHeight) :
    ∃ r, paint g B ximg s = some r ∧ r.1 = (0, 0) ∧
      r.2.2.currentPage = (paintClamp s).currentPage ∧
      r.2.2.currentTop = (paintClamp s).currentTop ∧ r.2.2.numInput = s.numInput := by
  unfold paint
  obtain ⟨⟨ht, x1, s1⟩, h1, hp1, ht1, hn1, -⟩ :=
    paintPage_frame g B ximg (paintClamp s).currentPage (-(paintClamp s).currentTop)
      (paintClamp s) hg
  have hnc : (paintClamp s).numInput = s.numInput := by
    by_cases c1 : s.currentTop < 0 <;> by_cases c2 : s.currentPage < 0 <;>
      simp [paintClamp, c1, c2]
  simp only [h1]
  split_ifs
  · obtain ⟨⟨ht', x2, s2⟩, h2, hp2, ht2, hn2, -⟩ :=
      paintPage_frame g B
        (x1 ++ [{ img := Image.plain (gapImg g), x := 0, y := ht - s1.currentTop }])
        (s1.currentPage + 1) (-s1.currentTop + ht + pageGap) s1 hg
    simp only [h2]
    refine ⟨_, rfl, rfl, ?_, ?_, ?_⟩ <;> simp_all
  · refine ⟨_, rfl, rfl, ?_, ?_, ?_⟩ <;> simp_all

theorem paintClamp_nonneg (s : State) :
    0 ≤ (paintClamp s).currentPage ∧ 0 ≤ (paintClamp s).currentTop := by
  by_cases c1 : s.currentTop < 0 <;> by_cases c2 : s.currentPage < 0 <;>
    simp [paintClamp, c1, c2] <;> omega

theorem paintClamp_of_neg_page (s : State) (h : s.currentPage < 0) :
    (paintClamp s).currentPage = 0 ∧ (paintClamp s).currentTop = 0 := by
  by_cases c1 : s.currentTop < 0 <;> simp [paintClamp, c1, h]

/-- C2 (amended): for every start state, every `pageHeight > 0` (and `winWidth > 0`) and all
integers `d1`, `d2`, the calls `updatePosition(d1); updatePosition(d2)` and the single call
`updatePosition(d1 + d2)` all return and end at the same absolute offset
`currentPage * pageHeight + currentTop`; the pairs `(currentPage, currentTop)` coincide whenever
both end states have `0 ≤ currentTop < pageHeight`. -/
theorem updatePosition_additive_offset (g : Params) (B : Backend) (s : State) (d1 d2 : Int)
    (hH : 0 < g.pageHeight) (hW : 0 < g.winWidth) :
    ∃ s1 s2 s3, updatePosition g B d1 s = some s1 ∧ updatePosition g B d2 s1 = some s2 ∧
      updatePosition g B (d1 + d2) s = some s3 ∧
      s2.currentPage * g.pageHeight + s2.currentTop =
        s3.currentPage * g.pageHeight + s3.currentTop ∧
      (0 ≤ s2.currentTop → s2.currentTop < g.pageHeight →
        0 ≤ s3.currentTop → s3.currentTop < g.pageHeight →
        s2.currentPage = s3.currentPage ∧ s2.currentTop = s3.currentTop) := by
  have hg := mul_pos hW hH
  obtain ⟨s1, h1, o1⟩ := updatePosition_offset g B d1 s hg
  obtain ⟨s2, h2, o2⟩ := updatePosition_offset g B d2 s1 hg
  obtain ⟨s3, h3, o3⟩ := updatePosition_offset g B (d1 + d2) s hg
  have hoff : s2.currentPage * g.pageHeight + s2.currentTop =
      s3.currentPage * g.pageHeight + s3.currentTop := by omega
  refine ⟨s1, s2, s3, h1, h2, h3, hoff, ?_⟩
  intro a1 a2 a3 a4
  have hp : s2.currentPage = s3.currentPage := by
    rcases lt_trichotomy s2.currentPage s3.currentPage with h | h | h
    · exfalso
      have : (s2.currentPage + 1) * g.pageHeight ≤ s3.currentPage * g.pageHeight :=
        mul_le_mul_of_nonneg_right (by omega) (le_of_lt hH)
      rw [add_mul, one_mul] at this
      omega
    · exact h
    · exfalso
      have : (s3.currentPage + 1) * g.pageHeight ≤ s2.currentPage * g.pageHeight :=
        mul_le_mul_of_nonneg_right (by omega) (le_of_lt hH)
      rw [add_mul, one_mul] at this
      omega
  refine ⟨hp, ?_⟩
  rw [hp] at hoff
  omega

/-- Witness for C2 (amended): `d1 = d2 = 7` from `(0, 0)` on pages of height 10. -/
theorem updatePosition_additive_offset_witness :
    ∃ s1 s2 s3, updatePosition smallParams okBackend 7 (stateAt 0 0) = some s1 ∧
      updatePosition smallParams okBackend 7 s1 = some s2 ∧
      updatePosition smallParams okBackend (7 + 7) (stateAt 0 0) = some s3 ∧
      s2.currentPage * smallParams.pageHeight + s2.currentTop =
        s3.currentPage * smallParams.pageHeight + s3.currentTop ∧
      (0 ≤ s2.currentTop → s2.currentTop < smallParams.pageHeight →
        0 ≤ s3.currentTop → s3.currentTop < smallParams.pageHeight →
        s2.currentPage = s3.currentPage ∧ s2.currentTop = s3.currentTop) :=
  updatePosition_additive_offset smallParams okBackend (stateAt 0 0) 7 7 (by decide) (by decide)

/-- C2 fails as stated: on pages of height 10, from `(0, 5)` the deltas `6` then `-1` end at
`(1, 0)` but the single delta `5` ends at `(0, 10)`; from `(0, 0)` the deltas `25` then `0` end
at `(2, 5)` but the single delta `25` ends at `(1, 15)`. -/
theorem updatePosition_additive_counterexample :
    (∃ s1 s2 s3, updatePosition smallParams okBackend 6 (stateAt 0 5) = some s1 ∧
      updatePosition smallParams okBackend (-1) s1 = some s2 ∧
      updatePosition smallParams okBackend (6 + -1) (stateAt 0 5) = some s3 ∧
      s2.pos = (1, 0) ∧ s3.pos = (0, 10) ∧ s2.pos ≠ s3.pos) ∧
    (∃ s1 s2 s3, updatePosition smallParams okBackend 25 (stateAt 0 0) = some s1 ∧
      updatePosition smallParams okBackend 0 s1 = some s2 ∧
      updatePosition smallParams okBackend (25 + 0) (stateAt 0 0) = some s3 ∧
      s2.pos = (2, 5) ∧ s3.pos = (1, 15) ∧ s2.pos ≠ s3.pos) :=
  ⟨⟨_, _, _, rfl, rfl, rfl, rfl, rfl, by decide⟩, ⟨_, _, _, rfl, rfl, rfl, rfl, rfl, by decide⟩⟩

/-- C3 (amended): for every `pageHeight > 0` (and `winWidth > 0`) and every `delta < 0`,
`updatePosition(delta)` applied to `(0, 0)` returns with the state at
`(-1, pageHeight + delta)`; the clamp is applied by `paint`: the next `paint` call returns and
leaves the state at `(0, 0)`. -/
theorem updatePosition_start_then_paint (g : Params) (B : Backend) (s : State) (delta : Int)
    (hH : 0 < g.pageHeight) (hW : 0 < g.winWidth) (hdelta : delta < 0)
    (hstart : s.currentPage = 0 ∧ s.currentTop = 0) :
    ∃ s1, updatePosition g B delta s = some s1 ∧
      s1.currentPage = -1 ∧ s1.currentTop = g.pageHeight + delta ∧
      ∀ ximg : XImage, ∃ r, paint g B ximg s1 = some r ∧
        r.2.2.currentPage = 0 ∧ r.2.2.currentTop = 0 := by
  have hg := mul_pos hW hH
  obtain ⟨s1, h1, -, -, -, hb, -⟩ := updatePosition_spec g B delta s hg
  obtain ⟨hp, ht⟩ := hb (by omega) (by omega)
  refine ⟨s1, h1, by omega, by omega, ?_⟩
  intro ximg
  obtain ⟨r, hr, -, hrp, hrt, -⟩ := paint_frame g B ximg s1 hg
  obtain ⟨c1, c2⟩ := paintClamp_of_neg_page s1 (by omega)
  exact ⟨r, hr, by omega, by omega⟩

/-- Witness for C3 (amended): delta `-3` from `(0, 0)` on pages of height 10. -/
theorem updatePosition_start_then_paint_witness :
    ∃ s1, updatePosition smallParams okBackend (-3) (stateAt 0 0) = some s1 ∧
      s1.currentPage = -1 ∧ s1.currentTop = smallParams.pageHeight + -3 ∧
      ∀ ximg : XImage, ∃ r, paint smallParams okBackend ximg s1 = some r ∧
        r.2.2.currentPage = 0 ∧ r.2.2.currentTop = 0 :=
  updatePosition_start_then_paint smallParams okBackend (stateAt 0 0) (-3)
    (by decide) (by decide) (by decide) ⟨rfl, rfl⟩

/-- C3 fails as stated: on pages of height 10, `updatePosition(-3)` applied to `(0, 0)` ends at
`(-1, 7)`, with a negative `currentPage`. -/
theorem updatePosition_start_counterexample :
    ∃ s1, updatePosition smallParams okBackend (-3) (stateAt 0 0) = some s1 ∧
      s1.pos = (-1, 7) ∧ s1.pos ≠ (0, 0) ∧ s1.currentPage < 0 :=
  ⟨_, rfl, rfl, by decide, by decide⟩

theorem load_cases (g : Params) (B : Backend) (i : Int) (s : State)
    (hg : 0 < g.winWidth * g.pageHeight) :
    (∃ d, s.cache i = some d ∧ load g B i s = some (d, s)) ∨
    (s.cache i = none ∧ 0 < renderHt g B s i ∧
      load g B i s = some (renderBuffer g B s i,
        { s with cache := fun j => if j = i then some (renderBuffer g B s i) else s.cache j,
                 world := s.world ++ [renderEvent g B s i] })) ∨
    (s.cache i = none ∧ renderHt g B s i ≤ 0 ∧
      load g B i s = some ([], { s with world := s.world ++ [renderEvent g B s i] })) := by
  cases hc : s.cache i with
  | some data => left; exact ⟨data, rfl, by simp [load, hc]⟩
  | none =>
    right
    by_cases hpos : 0 < renderHt g B s i
    · left
      refine ⟨rfl, hpos, ?_⟩
      have hne : ¬ B.render_ht s.world s.document (cInt i) (cInt g.winWidth) (cInt g.pageHeight)
          (cInt (-g.xoffset)) = 0 := by
        unfold renderHt at hpos; omega
      have hpos2 := hpos
      unfold renderHt at hpos2
      simp [load, hc, LoadPDFPage_eq B _ _ _ _ _ _ hg, renderBuffer, renderEvent, renderHt,
        hne, hpos2]
    · right
      refine ⟨rfl, by omega, ?_⟩
      have hpos2 := hpos
      unfold renderHt at hpos2
      simp [load, hc, LoadPDFPage_eq B _ _ _ _ _ _ hg, renderEvent, renderHt, hpos2]

theorem renderBuffer_length (g : Params) (B : Backend) (s : State) (i : Int) :
    (renderBuffer g B s i).length = (g.winWidth * g.pageHeight).toNat := by
  simp [renderBuffer]

theorem renderBuffer_ne_nil (g : Params) (B : Backend) (s : State) (i : Int)
    (hg : 0 < g.winWidth * g.pageHeight) : renderBuffer g B s i ≠ [] := by
  intro h
  have := renderBuffer_length g B s i
  rw [h] at this
  simp at this
  omega

/-- C4: for every cache and page index `i` absent from it, when the render call of `load(i)`
returns `(data, ht, err)`: if the render fails (`ht ≤ 0`, in particular `ht = 0`, or an error)
then `load(i)` returns no data and the cache is unchanged; if it succeeds (`ht > 0`, no error)
then `load(i)` returns `data` and the cache afterwards is the old cache plus exactly the entry
`i -> data`. -/
theorem load_miss_result (g : Params) (B : Backend) (i : Int) (s : State)
    (data : List Nat) (ht : Int) (err : Option GoError) (w1 : List Event)
    (hmiss : s.cache i = none)
    (hrender : LoadPDFPage B s.world s.document i g.winWidth g.pageHeight (-g.xoffset)
      = some ((data, ht, err), w1)) :
    ((ht ≤ 0 ∨ err ≠ none) →
      ∃ s1, load g B i s = some ([], s1) ∧ s1.cache = s.cache) ∧
    ((0 < ht ∧ err = none) →
      ∃ s1, load g B i s = some (data, s1) ∧
        s1.cache = (fun j => if j = i then some data else s.cache j) ∧
        s1.cache i = some data ∧ ∀ j, j ≠ i → s1.cache j = s.cache j) := by
  constructor
  · intro hfail
    have hn : ¬ (ht > 0 ∧ err = none) := by
      rintro ⟨a, b⟩
      rcases hfail with h | h
      · omega
      · exact h b
    have hl : load g B i s = some ([], { s with world := w1 }) := by
      simp [load, hmiss, hrender, hn]
    exact ⟨_, hl, rfl⟩
  · intro hok
    have hok2 : ht > 0 ∧ err = none := hok
    have hl : load g B i s = some (data,
        { s with cache := fun j => if j = i then some data else s.cache j, world := w1 }) := by
      simp [load, hmiss, hrender, hok2]
    refine ⟨_, hl, rfl, by simp, ?_⟩
    intro j hj
    simp [hj]

/-- Witness for C4: page 3 on an empty cache, with a backend that renders it. -/
theorem load_miss_result_witness :
    ∃ data ht err w1,
      LoadPDFPage okBackend (stateAt 0 0).world (stateAt 0 0).document 3 smallParams.winWidth
        smallParams.pageHeight (-smallParams.xoffset) = some ((data, ht, err), w1) ∧
      0 < ht ∧ err = none ∧
      ((ht ≤ 0 ∨ err ≠ none) →
        ∃ s1, load smallParams okBackend 3 (stateAt 0 0) = some ([], s1) ∧
          s1.cache = (stateAt 0 0).cache) ∧
      ((0 < ht ∧ err = none) →
        ∃ s1, load smallParams okBackend 3 (stateAt 0 0) = some (data, s1) ∧
          s1.cache = (fun j => if j = 3 then some data else (stateAt 0 0).cache j) ∧
          s1.cache 3 = some data ∧ ∀ j, j ≠ 3 → s1.cache j = (stateAt 0 0).cache j) :=
  ⟨_, _, _, _, rfl, by decide, rfl,
    load_miss_result smallParams okBackend 3 (stateAt 0 0) _ _ _ _ rfl rfl⟩

theorem load_hit (g : Params) (B : Backend) (i : Int) (s : State) (d : List Nat)
    (h : s.cache i = some d) : load g B i s = some (d, s) := by
  simp [load, h]

theorem load_keeps_entry (g : Params) (B : Backend) (i j : Int) (s : State) (d : List Nat)
    (hg : 0 < g.winWidth * g.pageHeight) (h : s.cache i = some d) :
    ∃ x s1, load g B j s = some (x, s1) ∧ s1.cache i = some d := by
  rcases load_cases g B j s hg with ⟨x, -, hl⟩ | ⟨hc, -, hl⟩ | ⟨-, -, hl⟩
  · exact ⟨_, _, hl, h⟩
  · refine ⟨_, _, hl, ?_⟩
    have hij : i ≠ j := by
      intro e
      rw [e, hc] at h
      cases h
    simp [hij, h]
  · exact ⟨_, _, hl, h⟩

theorem loadRun_keeps_entry (g : Params) (B : Backend) (i : Int) (d : List Nat)
    (hg : 0 < g.winWidth * g.pageHeight) :
    ∀ (js : List Int) (s : State), s.cache i = some d →
      ∃ s2, loadRun g B js s = some s2 ∧ s2.cache i = some d := by
  intro js
  induction js with
  | nil => intro s h; exact ⟨s, rfl, h⟩
  | cons j js ih =>
    intro s h
    obtain ⟨x, s1, hl, h1⟩ := load_keeps_entry g B i j s d hg h
    obtain ⟨s2, hr, h2⟩ := ih s1 h1
    exact ⟨s2, by simp [loadRun, hl, hr], h2⟩

theorem load_caches_result (g : Params) (B : Backend) (i : Int) (s s1 : State) (d : List Nat)
    (hg : 0 < g.winWidth * g.pageHeight) (hload : load g B i s = some (d, s1)) (hd : d ≠ []) :
    s1.cache i = some d := by
  rcases load_cases g B i s hg with ⟨x, hc, hl⟩ | ⟨-, -, hl⟩ | ⟨-, -, hl⟩
  · rw [hl] at hload
    cases hload
    exact hc
  · rw [hl] at hload
    cases hload
    simp
  · rw [hl] at hload
    cases hload
    exact absurd rfl hd

theorem loadRun_renders_once (g : Params) (B : Backend) (i : Int)
    (hg : 0 < g.winWidth * g.pageHeight) :
    ∀ (js : List Int) (s : State), (∀ k ∈ js, FitsCInt k) →
      ∃ s2 new, loadRun g B js s = some s2 ∧ s2.world = s.world ++ new ∧
        new.countP (Event.isRenderOk i) ≤ 1 ∧
        (s.cache i ≠ none → new.countP (Event.isRenderOk i) = 0) := by
  intro js
  induction js with
  | nil => intro s _; exact ⟨s, [], rfl, by simp, by simp, by simp⟩
  | cons j js ih =>
    intro s hfit
    have hj : cInt j = j := cInt_of_fits j (hfit j (List.mem_cons_self j js))
    have hrest : ∀ k ∈ js, FitsCInt k := fun k hk => hfit k (List.mem_cons_of_mem j hk)
    rcases load_cases g B j s hg with ⟨x, -, hl⟩ | ⟨hc, hpos, hl⟩ | ⟨hc, hneg, hl⟩
    · obtain ⟨s2, new, hr, hw, h1, h0⟩ := ih s hrest
      exact ⟨s2, new, by simp [loadRun, hl, hr], hw, h1, h0⟩
    · obtain ⟨s2, new, hr, hw, h1, h0⟩ := ih
        { s with cache := fun k => if k = j then some (renderBuffer g B s j) else s.cache k,
                 world := s.world ++ [renderEvent g B s j] } hrest
      refine ⟨s2, renderEvent g B s j :: new, by simp [loadRun, hl, hr], by simpa using hw, ?_, ?_⟩
      · by_cases hij : j = i
        · have hz := h0 (by simp [hij])
          rw [List.countP_cons, hz]
          split_ifs <;> simp
        · have : Event.isRenderOk i (renderEvent g B s j) = false := by
            simp [Event.isRenderOk, renderEvent, hj, hij]
          rw [List.countP_cons, this]
          simpa using h1
      · intro hsome
        have hij : ¬ j = i := by
          intro e
          rw [e] at hc
          exact hsome hc
        have hij2 : ¬ i = j := fun e => hij e.symm
        have hz := h0 (by simpa [hij2] using hsome)
        have : Event.isRenderOk i (renderEvent g B s j) = false := by
          simp [Event.isRenderOk, renderEvent, hj, hij]
        rw [List.countP_cons, this, hz]
        simp
    · obtain ⟨s2, new, hr, hw, h1, h0⟩ :=
        ih { s with world := s.world ++ [renderEvent g B s j] } hrest
      have hno : Event.isRenderOk i (renderEvent g B s j) = false := by
        simp only [Event.isRenderOk, renderEvent, decide_eq_false_iff_not, not_and, not_lt]
        intro _
        exact hneg
      refine ⟨s2, renderEvent g B s j :: new, by simp [loadRun, hl, hr], by simpa using hw, ?_, ?_⟩
      · rw [List.countP_cons, hno]
        simpa using h1
      · intro hsome
        rw [List.countP_cons, hno, h0 hsome]
        simp

/-- C5 (amended): once a `load(i)` call has returned a buffer `d` (non-empty), after any further
`load` calls (no reload) `load(i)` returns, gives `d` again and leaves the whole state unchanged:
the cache is the same and the backend log is the same, so no render is invoked.  And any run of
`load` calls whose page indices are signed 32-bit values (the range of the `C.int` that the
render call takes) returns and adds at most one accepted render of page `i` to the backend
log. -/
theorem load_memoized (g : Params) (B : Backend) (i : Int) (s s1 : State) (d : List Nat)
    (js : List Int) (hH : 0 < g.pageHeight) (hW : 0 < g.winWidth)
    (hload : load g B i s = some (d, s1)) (hd : d ≠ []) :
    (∃ s2, loadRun g B js s1 = some s2 ∧ load g B i s2 = some (d, s2)) ∧
    (∀ (ks : List Int) (t : State), (∀ k ∈ ks, FitsCInt k) →
      ∃ t2 new, loadRun g B ks t = some t2 ∧
        t2.world = t.world ++ new ∧ new.countP (Event.isRenderOk i) ≤ 1) := by
  have hg := mul_pos hW hH
  constructor
  · obtain ⟨s2, hr, h2⟩ :=
      loadRun_keeps_entry g B i d hg js s1 (load_caches_result g B i s s1 d hg hload hd)
    exact ⟨s2, hr, load_hit g B i s2 d h2⟩
  · intro ks t hfit
    obtain ⟨t2, new, hr, hw, h1, -⟩ := loadRun_renders_once g B i hg ks t hfit
    exact ⟨t2, new, hr, hw, h1⟩

/-- Witness for C5 (amended): page 3 is loaded, then pages 4, 3, 5, then page 3 again; and the
run 3, 4, 3 adds one accepted render of page 3 to the log. -/
theorem load_memoized_witness :
    ∃ d s1, load smallParams okBackend 3 (stateAt 0 0) = some (d, s1) ∧ d ≠ [] ∧
      (∃ s2, loadRun smallParams okBackend [4, 3, 5] s1 = some s2 ∧
        load smallParams okBackend 3 s2 = some (d, s2)) ∧
      (∃ t2 new, loadRun smallParams okBackend [3, 4, 3] (stateAt 0 0) = some t2 ∧
        t2.world = (stateAt 0 0).world ++ new ∧ new.countP (Event.isRenderOk 3) ≤ 1) := by
  obtain ⟨h1, h2⟩ :=
    load_memoized smallParams okBackend 3 (stateAt 0 0) _ _ [4, 3, 5] (by decide) (by decide)
      (rfl : load smallParams okBackend 3 (stateAt 0 0) = some (_, _)) (by decide)
  exact ⟨_, _, rfl, by decide, h1, h2 [3, 4, 3] (stateAt 0 0) (by decide)⟩

/-- C5 fails as stated: `load(3)` and then `load(4294967299)` both ask the backend for page 3
(`C.int(4294967299) = 3`), and both renders are accepted: the backend log holds two successful
renders of page 3 although neither call was a reload. -/
theorem load_memoized_counterexample :
    cInt 4294967299 = 3 ∧
    ∃ t2, loadRun smallParams okBackend [3, 4294967299] (stateAt 0 0) = some t2 ∧
      t2.world = [Event.render_pdf_page (some 1) 3 2 10 0 10,
                  Event.render_pdf_page (some 1) 3 2 10 0 10] ∧
      t2.world.countP (Event.isRenderOk 3) = 2 :=
  ⟨by decide, _, rfl, rfl, by decide⟩

/-! ## Key and refresh handling -/

theorem load_keeps_valid (g : Params) (B : Backend) (i : Int) (s : State)
    (hg : 0 < g.winWidth * g.pageHeight) (hv : CacheValid g s) :
    ∃ d s1, load g B i s = some (d, s1) ∧ CacheValid g s1 := by
  rcases load_cases g B i s hg with ⟨x, -, hl⟩ | ⟨-, -, hl⟩ | ⟨-, -, hl⟩
  · exact ⟨_, _, hl, hv⟩
  · refine ⟨_, _, hl, ?_⟩
    intro j d hj
    by_cases hji : j = i
    · simp only [hji, if_true, Option.some.injEq] at hj
      rw [← hj]
      exact renderBuffer_length g B s i
    · simp only [hji, if_false] at hj
      exact hv j d hj
  · exact ⟨_, _, hl, hv⟩

theorem keypress_confirm_call (g : Params) (B : Backend) (s : State)
    (hH : 0 < g.pageHeight) (hW : 0 < g.winWidth) (hv : CacheValid g s)
    (hn : 0 < s.numInput) :
    ∃ s1, keypress g B 36 s = some (1, s1) ∧ s1.numInput = 0 ∧
      ((s.cache s.numInput ≠ none ∨ 0 < renderHt g B s s.numInput) →
        s1.currentPage = s.numInput ∧ s1.currentTop = 0) ∧
      ((s.cache s.numInput = none ∧ renderHt g B s s.numInput ≤ 0) →
        s1.currentPage = s.currentPage ∧ s1.currentTop = s.currentTop) := by
  have hg := mul_pos hW hH
  have hn2 : s.numInput > 0 := hn
  rcases load_cases g B s.numInput s hg with ⟨d, hc, hl⟩ | ⟨hc, hpos, hl⟩ | ⟨hc, hneg, hl⟩
  · have hlen : d.length > 0 := by
      rw [hv _ d hc]
      omega
    refine ⟨{ s with currentPage := s.numInput, currentTop := 0, numInput := 0 }, ?_, rfl, ?_, ?_⟩
    · simp [keypress, hn2, hl, hlen]
    · intro _; exact ⟨rfl, rfl⟩
    · rintro ⟨h, -⟩
      rw [hc] at h
      cases h
  · have hlen : (renderBuffer g B s s.numInput).length > 0 := by
      rw [renderBuffer_length]
      omega
    refine ⟨{ s with cache := fun j => if j = s.numInput then some (renderBuffer g B s s.numInput)
                                         else s.cache j,
                     world := s.world ++ [renderEvent g B s s.numInput],
                     currentPage := s.numInput, currentTop := 0, numInput := 0 }, ?_, rfl, ?_, ?_⟩
    · simp [keypress, hn2, hl, hlen]
    · intro _; exact ⟨rfl, rfl⟩
    · rintro ⟨-, h⟩
      omega
  · refine ⟨{ s with world := s.world ++ [renderEvent g B s s.numInput], numInput := 0 },
      ?_, rfl, ?_, ?_⟩
    · simp [keypress, hn2, hl]
    · rintro (h | h)
      · exact absurd hc h
      · omega
    · intro _; exact ⟨rfl, rfl⟩

/-- C6 (amended): for every state (with a cache of valid buffers, and a geometry in which a
render call is possible) whose accumulator `n` is positive and below `2^31` (so that the
`C.int(n)` handed to the backend is `n`), `keypress(36)` returns handled (1) with accumulator 0;
the position becomes `(n, 0)` if page `n` is cached or the backend renders its page `n`, and
`(currentPage, currentTop)` is as before if page `n` is not cached and the backend fails to
render its page `n`. -/
theorem keypress_confirm (g : Params) (B : Backend) (s : State)
    (hH : 0 < g.pageHeight) (hW : 0 < g.winWidth) (hv : CacheValid g s)
    (hn : 0 < s.numInput) (hfit : s.numInput < 2147483648) :
    ∃ s1, keypress g B 36 s = some (1, s1) ∧ s1.numInput = 0 ∧
      ((s.cache s.numInput ≠ none ∨ 0 < backendHt g B s s.numInput) →
        s1.currentPage = s.numInput ∧ s1.currentTop = 0) ∧
      ((s.cache s.numInput = none ∧ backendHt g B s s.numInput ≤ 0) →
        s1.currentPage = s.currentPage ∧ s1.currentTop = s.currentTop) := by
  have hc : cInt s.numInput = s.numInput :=
    cInt_of_fits s.numInput ⟨by omega, hfit⟩
  have he : renderHt g B s s.numInput = backendHt g B s s.numInput := by
    unfold renderHt backendHt
    rw [hc]
  rw [← he]
  exact keypress_confirm_call g B s hH hW hv hn

/-- Witness for C6 (amended): the keys `'1'` (code 10), `'2'` (code 11), then confirm (code 36),
with page 12 renderable, end at `(12, 0)` with accumulator 0. -/
theorem keypress_confirm_witness :
    ∃ s1 s2, keypress smallParams okBackend 10 (stateAt 0 0) = some (0, s1) ∧
      keypress smallParams okBackend 11 s1 = some (0, s2) ∧ s2.numInput = 12 ∧
      ∃ s3, keypress smallParams okBackend 36 s2 = some (1, s3) ∧ s3.numInput = 0 ∧
        s3.currentPage = 12 ∧ s3.currentTop = 0 := by
  refine ⟨_, _, rfl, rfl, rfl, ?_⟩
  obtain ⟨s3, h, h0, hjump, -⟩ :=
    keypress_confirm smallParams okBackend
      { stateAt 0 0 with numInput := 12 } (by decide) (by decide)
      (fun i d hc => by cases hc) (by decide) (by decide)
  exact ⟨s3, h, h0, hjump (Or.inr (by decide))⟩

/-- C6 fails as stated: on a document of 100 pages the keys 4, 2, 9, 4, 9, 6, 7, 2, 9, 9 leave
the accumulator at 4294967299; the backend cannot render its page 4294967299 and the page is
not cached, yet the confirm key moves the position to `(4294967299, 0)`, because the render call
asks for page `C.int(4294967299) = 3`. -/
theorem keypress_confirm_counterexample :
    ∃ s0 s1, keyRun smallParams hundredPages [13, 11, 18, 13, 18, 15, 16, 11, 18, 18]
        (stateAt 0 0) = some s0 ∧
      s0.numInput = 4294967299 ∧ s0.pos = (0, 0) ∧ s0.cache 4294967299 = none ∧
      backendHt smallParams hundredPages s0 4294967299 = 0 ∧
      keypress smallParams hundredPages 36 s0 = some (1, s1) ∧
      s1.pos = (4294967299, 0) ∧ s1.pos ≠ s0.pos :=
  ⟨_, _, rfl, rfl, rfl, rfl, rfl, rfl, rfl, by decide⟩

theorem stringsSplit_ne_nil (sep : Char) (l : GoString) : stringsSplit sep l ≠ [] := by
  induction l with
  | nil => simp [stringsSplit]
  | cons c cs ih =>
    unfold stringsSplit
    split_ifs
    · simp
    · cases h : stringsSplit sep cs with
      | nil => exact absurd h ih
      | cons p ps => simp

theorem stringsSplit_length (sep : Char) (l : GoString) :
    (stringsSplit sep l).length = l.count sep + 1 := by
  induction l with
  | nil => simp [stringsSplit]
  | cons c cs ih =>
    unfold stringsSplit
    by_cases hc : c = sep
    · simp [hc, ih]
    · have hc2 : ¬ (c == sep) = true := by simpa using hc
      cases h : stringsSplit sep cs with
      | nil => exact absurd h (stringsSplit_ne_nil sep cs)
      | cons p ps =>
        rw [h] at ih
        simp only [hc, if_false, List.length_cons] at ih ⊢
        rw [List.count_cons, ih]
        simp [hc2]

theorem stringsSplit_length_lt_two (sep : Char) (l : GoString) :
    (stringsSplit sep l).length < 2 ↔ sep ∉ l := by
  rw [stringsSplit_length, ← List.count_eq_zero]
  omega

theorem refresh_jump (g : Params) (B : Backend) (ParseInt : GoString → Int) (str : GoString)
    (s : State) (hne : str ≠ []) (hat : '@' ∈ str.take (str.length - 1)) :
    refresh g B ParseInt str s =
      some { s with
        currentPage := ParseInt ((stringsSplit '@' (str.take (str.length - 1))).getD 1 []),
        currentTop := 0 } := by
  have h0 : ¬ str.length = 0 := by
    intro h
    exact hne (List.length_eq_zero.mp h)
  have h2 : ¬ (stringsSplit '@' (str.take (str.length - 1))).length < 2 := by
    rw [stringsSplit_length_lt_two]
    exact fun h => h hat
  simp only [refresh, h0, if_false, h2]

/-- C7, the code at the failing input: with a backend that cannot render page 7 (`load(7)`
returns no data), `refresh("title@7*")` from `(0, 0)` still moves the position to `(7, 0)`,
without calling the backend; the sibling path, key `'7'` (code 16) then confirm (code 36),
leaves the position at `(0, 0)`. -/
theorem refresh_jump_unrenderable :
    (∃ d s1, load smallParams failBackend 7 (stateAt 0 0) = some (d, s1) ∧ d = []) ∧
    (∃ s1, refresh smallParams failBackend parseDecimal "title@7*".toList (stateAt 0 0) = some s1 ∧
      s1.pos = (7, 0) ∧ s1.pos ≠ (stateAt 0 0).pos ∧ s1.world = (stateAt 0 0).world) ∧
    (∃ s0 s1, keypress smallParams failBackend 16 (stateAt 0 0) = some (0, s0) ∧
      s0.numInput = 7 ∧ keypress smallParams failBackend 36 s0 = some (1, s1) ∧
      s1.pos = (stateAt 0 0).pos) :=
  ⟨⟨_, _, rfl, rfl⟩, ⟨_, rfl, rfl, by decide, rfl⟩, ⟨_, _, rfl, rfl, rfl, rfl⟩⟩

/-- C8: for every non-empty signal whose text without its last character contains no `'@'`,
`refresh` returns; it first closes the previous handle and then reopens `pdfFile` (the backend
log grows by the cleanup call, then the open call, then the table-of-contents call when the
open succeeded), the cache is empty afterwards, and `currentPage`, `currentTop` and the
accumulator are unchanged. -/
theorem refresh_reload (g : Params) (B : Backend) (ParseInt : GoString → Int) (str : GoString)
    (s : State) (hne : str ≠ []) (hat : '@' ∉ str.take (str.length - 1)) :
    ∃ s1, refresh g B ParseInt str s = some s1 ∧
      s1.document = B.init_pdf_document (s.world ++ [Event.cleanup_pdf_document s.document])
        g.pdfFile ∧
      s1.world = s.world ++
        [Event.cleanup_pdf_document s.document, Event.init_pdf_document g.pdfFile s1.document]
        ++ (if s1.document = none then [] else [Event.get_pdf_toc s1.document]) ∧
      (∀ i, s1.cache i = none) ∧
      s1.currentPage = s.currentPage ∧ s1.currentTop = s.currentTop ∧
      s1.numInput = s.numInput := by
  have h0 : ¬ str.length = 0 := by
    intro h
    exact hne (List.length_eq_zero.mp h)
  have h2 : (stringsSplit '@' (str.take (str.length - 1))).length < 2 :=
    (stringsSplit_length_lt_two _ _).mpr hat
  have hr : refresh g B ParseInt str s =
      some { s with document := (initPDFFile B (closePDF s.world s.document) g.pdfFile).1.1,
                    cache := fun _ => none,
                    world := (initPDFFile B (closePDF s.world s.document) g.pdfFile).2 } := by
    simp only [refresh, h0, if_false, h2, if_true]
  refine ⟨_, hr, ?_, ?_, fun _ => rfl, rfl, rfl, rfl⟩
  · simp only [initPDFFile, closePDF]
    cases B.init_pdf_document (s.world ++ [Event.cleanup_pdf_document s.document]) g.pdfFile <;> rfl
  · simp only [initPDFFile, closePDF]
    cases B.init_pdf_document (s.world ++ [Event.cleanup_pdf_document s.document]) g.pdfFile <;>
      simp

/-- Witness for C8: the signal `"title*"` in the state `(3, 4)`. -/
theorem refresh_reload_witness :
    ∃ s1, refresh smallParams okBackend parseDecimal "title*".toList (stateAt 3 4) = some s1 ∧
      s1.document = okBackend.init_pdf_document
        ((stateAt 3 4).world ++ [Event.cleanup_pdf_document (stateAt 3 4).document])
        smallParams.pdfFile ∧
      s1.world = (stateAt 3 4).world ++
        [Event.cleanup_pdf_document (stateAt 3 4).document,
          Event.init_pdf_document smallParams.pdfFile s1.document]
        ++ (if s1.document = none then [] else [Event.get_pdf_toc s1.document]) ∧
      (∀ i, s1.cache i = none) ∧
      s1.currentPage = (stateAt 3 4).currentPage ∧ s1.currentTop = (stateAt 3 4).currentTop ∧
      s1.numInput = (stateAt 3 4).numInput :=
  refresh_reload smallParams okBackend parseDecimal "title*".toList (stateAt 3 4)
    (by decide) (by decide)

/-! ## Compositing -/

theorem paintPage_guard (g : Params) (B : Backend) (ximg : XImage) (i v : Int) (s : State)
    (hv : g.pageHeight ≤ v) : paintPage g B ximg i v s = some (0, ximg, s) := by
  have hv2 : v ≥ g.pageHeight := hv
  simp [paintPage, hv2]

theorem paintPage_drawn (g : Params) (B : Backend) (ximg : XImage) (i v : Int)
    (s s1 : State) (d : List Nat) (hl : load g B i s = some (d, s1)) (hd : d ≠ [])
    (hv : v < g.pageHeight) :
    (0 ≤ v → paintPage g B ximg i v s = some (g.pageHeight,
      ximg ++ [{ img := Image.Crop
                   { Pix := d, Stride := g.winWidth * 4, Width := g.winWidth,
                     Height := g.pageHeight } 0 0 g.winWidth
                   (if v + g.pageHeight > g.winHeight then g.pageHeight - v else g.pageHeight),
                 x := 0, y := v }], s1)) ∧
    (v < 0 → 0 < g.pageHeight + v → paintPage g B ximg i v s = some (g.pageHeight,
      ximg ++ [{ img := Image.Crop
                   { Pix := d, Stride := g.winWidth * 4, Width := g.winWidth,
                     Height := g.pageHeight } 0 (-v) g.winWidth
                   (if g.pageHeight + v > g.winHeight then g.winHeight else g.pageHeight + v),
                 x := 0, y := 0 }], s1)) ∧
    (v < 0 → ¬ 0 < g.pageHeight + v → paintPage g B ximg i v s = some (g.pageHeight, ximg, s1)) := by
  have hv2 : ¬ v ≥ g.pageHeight := by omega
  have hlen : ¬ d.length = 0 := fun h => hd (List.length_eq_zero.mp h)
  refine ⟨?_, ?_, ?_⟩
  · intro h0
    have h0b : v ≥ 0 := h0
    simp only [paintPage, hv2, if_false, hl, hlen, h0b, if_true]
  · intro h0 h1
    have h0b : ¬ v ≥ 0 := by omega
    have h1b : g.pageHeight + v > 0 := h1
    simp only [paintPage, hv2, if_false, hl, hlen, h0b, h1b, if_true]
  · intro h0 h1
    have h0b : ¬ v ≥ 0 := by omega
    have h1b : ¬ g.pageHeight + v > 0 := h1
    simp only [paintPage, hv2, if_false, hl, hlen, h0b, h1b]

/-- C9, the code at the failing input: with `pageHeight = 10`, `winHeight = 8` and
`verticalShift = 1` (so `0 ≤ 1 < min(10, 8)`), `paintPage` blits the rows `[0, 9)` at surface
row 1, where `min(pageHeight, winHeight - verticalShift) = 7`. -/
theorem paintPage_overflow_height :
    (0 : Int) ≤ 1 ∧ (1 : Int) < min smallParams.pageHeight smallParams.winHeight ∧
    min smallParams.pageHeight (smallParams.winHeight - 1) = 7 ∧
    ∃ r, paintPage smallParams okBackend [] 0 1 (stateAt 0 0) = some r ∧ r.1 = 10 ∧
      r.2.1 = [{ img := Image.Crop
                   { Pix := renderBuffer smallParams okBackend (stateAt 0 0) 0, Stride := 8,
                     Width := 2, Height := 10 } 0 0 2 9,
                 x := 0, y := 1 }] :=
  ⟨by decide, by decide, by decide, _, rfl, rfl, rfl⟩

/-- C10 (amended): for every state with `currentPage ≥ 0` and `0 ≤ currentTop < pageHeight` in
which pages `currentPage` and `currentPage + 1` both load, after the first page's drawing `x1`:
when `pageHeight + pageGap - currentTop < winHeight` and `pageGap < currentTop`, `paint` draws the
gap band at surface row `pageHeight - currentTop` and blits page `currentPage + 1` at surface row
`pageHeight + pageGap - currentTop`; when the inequality holds but `currentTop ≤ pageGap`, that
row is not above `pageHeight`, `paintPage` returns at its guard and only the gap band is drawn;
when the inequality fails, `paint` draws neither the gap nor the next page. -/
theorem paint_second_page (g : Params) (B : Backend) (ximg : XImage) (s s1 s2 : State)
    (d1 d2 : List Nat)
    (hpage : 0 ≤ s.currentPage) (htop0 : 0 ≤ s.currentTop) (htop1 : s.currentTop < g.pageHeight)
    (hl1 : load g B s.currentPage s = some (d1, s1)) (hd1 : d1 ≠ [])
    (hl2 : load g B (s.currentPage + 1) s1 = some (d2, s2)) (hd2 : d2 ≠ []) :
    ∃ x1, paintPage g B ximg s.currentPage (-s.currentTop) s = some (g.pageHeight, x1, s1) ∧
      (g.pageHeight + pageGap - s.currentTop < g.winHeight → pageGap < s.currentTop →
        ∃ paintHeight, paint g B ximg s = some ((0, 0),
          x1 ++ [{ img := Image.plain (gapImg g), x := 0, y := g.pageHeight - s.currentTop },
                 { img := Image.Crop
                     { Pix := d2, Stride := g.winWidth * 4, Width := g.winWidth,
                       Height := g.pageHeight } 0 0 g.winWidth paintHeight,
                   x := 0, y := g.pageHeight + pageGap - s.currentTop }], s2)) ∧
      (g.pageHeight + pageGap - s.currentTop < g.winHeight → s.currentTop ≤ pageGap →
        paint g B ximg s = some ((0, 0),
          x1 ++ [{ img := Image.plain (gapImg g), x := 0, y := g.pageHeight - s.currentTop }],
          s1)) ∧
      (¬ g.pageHeight + pageGap - s.currentTop < g.winHeight →
        paint g B ximg s = some ((0, 0), x1, s1)) := by
  have hclamp : paintClamp s = s := by
    have c1 : ¬ s.currentTop < 0 := by omega
    have c2 : ¬ s.currentPage < 0 := by omega
    simp [paintClamp, c1, c2]
  have hH : 0 ≤ g.pageHeight := by omega
  obtain ⟨x1, hp1⟩ : ∃ x1, paintPage g B ximg s.currentPage (-s.currentTop) s
      = some (g.pageHeight, x1, s1) := by
    obtain ⟨a, b, c⟩ := paintPage_drawn g B ximg s.currentPage (-s.currentTop) s s1 d1 hl1 hd1
      (by omega)
    by_cases h0 : 0 ≤ -s.currentTop
    · exact ⟨_, a h0⟩
    · exact ⟨_, b (by omega) (by omega)⟩
  have ht1 : s1.currentTop = s.currentTop ∧ s1.currentPage = s.currentPage := by
    obtain ⟨e1, e2, -, -⟩ := load_frame_of_some g B s.currentPage s s1 d1 hl1
    exact ⟨e2, e1⟩
  refine ⟨x1, hp1, ?_, ?_, ?_⟩
  · intro hin hgap
    have hge : g.pageHeight ≥ 0 := hH
    obtain ⟨a, -, -⟩ := paintPage_drawn g B
      (x1 ++ [{ img := Image.plain (gapImg g), x := 0, y := g.pageHeight - s.currentTop }])
      (s.currentPage + 1) (-s.currentTop + g.pageHeight + pageGap) s1 s2 d2 hl2 hd2 (by omega)
    have ha := a (by unfold pageGap at *; omega)
    refine ⟨if -s.currentTop + g.pageHeight + pageGap + g.pageHeight > g.winHeight then
        g.pageHeight - (-s.currentTop + g.pageHeight + pageGap) else g.pageHeight, ?_⟩
    simp only [paint, hclamp, hp1, ht1.1, ht1.2, hge, hin, and_self, if_true, ha,
      List.append_assoc, List.singleton_append]
    have e : -s.currentTop + g.pageHeight + pageGap = g.pageHeight + pageGap - s.currentTop := by
      ring
    rw [e]
  · intro hin hgap
    have hge : g.pageHeight ≥ 0 := hH
    have hguard := paintPage_guard g B
      (x1 ++ [{ img := Image.plain (gapImg g), x := 0, y := g.pageHeight - s.currentTop }])
      (s.currentPage + 1) (-s.currentTop + g.pageHeight + pageGap) s1 (by omega)
    simp only [paint, hclamp, hp1, ht1.1, ht1.2, hge, hin, and_self, if_true, hguard]
  · intro hin
    simp only [paint, hclamp, hp1, ht1.1, hin, and_false, if_false]

/-- Witness for C10 (amended): pages of height 40 in a window of height 100, at `(2, 35)`. -/
theorem paint_second_page_witness :
    ∃ d1 s1 d2 s2, load gapParams okBackend 2 (stateAt 2 35) = some (d1, s1) ∧
      load gapParams okBackend 3 s1 = some (d2, s2) ∧
      ∃ x1, paintPage gapParams okBackend [] (stateAt 2 35).currentPage
          (-(stateAt 2 35).currentTop) (stateAt 2 35) = some (gapParams.pageHeight, x1, s1) ∧
        (gapParams.pageHeight + pageGap - (stateAt 2 35).currentTop < gapParams.winHeight →
          pageGap < (stateAt 2 35).currentTop →
          ∃ paintHeight, paint gapParams okBackend [] (stateAt 2 35) = some ((0, 0),
            x1 ++ [{ img := Image.plain (gapImg gapParams), x := 0,
                     y := gapParams.pageHeight - (stateAt 2 35).currentTop },
                   { img := Image.Crop
                       { Pix := d2, Stride := gapParams.winWidth * 4, Width := gapParams.winWidth,
                         Height := gapParams.pageHeight } 0 0 gapParams.winWidth paintHeight,
                     x := 0, y := gapParams.pageHeight + pageGap - (stateAt 2 35).currentTop }],
            s2)) ∧
        (gapParams.pageHeight + pageGap - (stateAt 2 35).currentTop < gapParams.winHeight →
          (stateAt 2 35).currentTop ≤ pageGap →
          paint gapParams okBackend [] (stateAt 2 35) = some ((0, 0),
            x1 ++ [{ img := Image.plain (gapImg gapParams), x := 0,
                     y := gapParams.pageHeight - (stateAt 2 35).currentTop }], s1)) ∧
        (¬ gapParams.pageHeight + pageGap - (stateAt 2 35).currentTop < gapParams.winHeight →
          paint gapParams okBackend [] (stateAt 2 35) = some ((0, 0), x1, s1)) :=
  ⟨_, _, _, _, rfl, rfl,
    paint_second_page gapParams okBackend [] (stateAt 2 35) _ _ _ _ (by decide) (by decide)
      (by decide) rfl (by decide) rfl (by decide)⟩

/-- C10 fails as stated: with pages of height 10 in a window of height 100, at `(0, 0)`, pages 0
and 1 both render and `pageHeight + pageGap - currentTop = 40 < 100`, but `paint` draws page 0
and the gap band at row 10 only; page 1 is neither blitted nor loaded. -/
theorem paint_second_page_counterexample :
    tallParams.pageHeight + pageGap - (stateAt 0 0).currentTop < tallParams.winHeight ∧
    (∃ d1 s1 d2 s2, load tallParams okBackend 0 (stateAt 0 0) = some (d1, s1) ∧ d1 ≠ [] ∧
      load tallParams okBackend 1 s1 = some (d2, s2) ∧ d2 ≠ []) ∧
    ∃ r, paint tallParams okBackend [] (stateAt 0 0) = some r ∧
      r.2.1 = [{ img := Image.Crop
                   { Pix := renderBuffer tallParams okBackend (stateAt 0 0) 0, Stride := 8,
                     Width := 2, Height := 10 } 0 0 2 10,
                 x := 0, y := 0 },
               { img := Image.plain (gapImg tallParams), x := 0, y := 10 }] ∧
      r.2.2.cache 1 = none :=
  ⟨by decide, ⟨_, _, _, _, rfl, by decide, rfl, by decide⟩, _, rfl, rfl, rfl⟩

/-! ## Repainting -/

theorem load_some_geometry (g : Params) (B : Backend) (i : Int) (s : State)
    (r : List Nat × State) (hc : s.cache i = none) (hl : load g B i s = some r) :
    0 < g.winWidth * g.pageHeight := by
  by_contra hg
  have : g.winWidth * g.pageHeight ≤ 0 := by omega
  simp [load, hc, LoadPDFPage, this] at hl

theorem load_cache_elsewhere (g : Params) (B : Backend) (i : Int) (s s1 : State) (d : List Nat)
    (hl : load g B i s = some (d, s1)) : ∀ j, j ≠ i → s1.cache j = s.cache j := by
  intro j hj
  cases hc : s.cache i with
  | some data =>
    rw [load_hit g B i s data hc] at hl
    cases hl
    rfl
  | none =>
    have hg := load_some_geometry g B i s _ hc hl
    rcases load_cases g B i s hg with ⟨x, hx, -⟩ | ⟨-, -, h⟩ | ⟨-, -, h⟩
    · rw [hc] at hx; cases hx
    · rw [h] at hl; cases hl; simp [hj]
    · rw [h] at hl; cases hl; rfl

theorem load_again (g : Params) (B : Backend) (hdet : B.Deterministic) (i : Int)
    (s s1 t : State) (d : List Nat) (hl : load g B i s = some (d, s1))
    (hcache : t.cache i = s1.cache i) (hdoc : t.document = s.document) :
    ∃ t1, load g B i t = some (d, t1) ∧ t1.cache = t.cache ∧ t1.document = t.document ∧
      t1.currentPage = t.currentPage ∧ t1.currentTop = t.currentTop ∧
      t1.numInput = t.numInput := by
  cases hc : s.cache i with
  | some data =>
    rw [load_hit g B i s data hc] at hl
    cases hl
    rw [hc] at hcache
    exact ⟨t, load_hit g B i t d hcache, rfl, rfl, rfl, rfl, rfl⟩
  | none =>
    have hg := load_some_geometry g B i s _ hc hl
    rcases load_cases g B i s hg with ⟨x, hx, -⟩ | ⟨-, -, h⟩ | ⟨-, hneg, h⟩
    · rw [hc] at hx; cases hx
    · rw [h] at hl
      cases hl
      simp only [if_true] at hcache
      exact ⟨t, load_hit g B i t _ hcache, rfl, rfl, rfl, rfl, rfl⟩
    · rw [h] at hl
      cases hl
      simp only at hcache
      rw [hc] at hcache
      have hsame : renderHt g B t i = renderHt g B s i := by
        unfold renderHt
        rw [hdoc]
        exact (hdet t.world s.world s.document (cInt i) (cInt g.winWidth) (cInt g.pageHeight)
          (cInt (-g.xoffset))).1
      rcases load_cases g B i t hg with ⟨x, hx, -⟩ | ⟨-, hpos, -⟩ | ⟨-, -, h2⟩
      · rw [hcache] at hx; cases hx
      · omega
      · exact ⟨_, h2, rfl, rfl, rfl, rfl, rfl⟩

theorem paintPage_eq_pageOps (g : Params) (B : Backend) (ximg : XImage) (i v : Int) (s : State) :
    paintPage g B ximg i v s =
      if v ≥ g.pageHeight then some (0, ximg, s)
      else (load g B i s).map
        (fun r => ((pageOps g r.1 v).1, ximg ++ (pageOps g r.1 v).2, r.2)) := by
  unfold paintPage pageOps
  by_cases hv : v ≥ g.pageHeight
  · simp [hv]
  · simp only [hv, if_false]
    cases load g B i s with
    | none => rfl
    | some r =>
      obtain ⟨pix, s1⟩ := r
      simp only [Option.map_some']
      split_ifs <;> simp

theorem paintPage_some (g : Params) (B : Backend) (ximg : XImage) (i v : Int) (s : State)
    (r : Int × XImage × State) (h : paintPage g B ximg i v s = some r) :
    (g.pageHeight ≤ v ∧ r = (0, ximg, s)) ∨
    (v < g.pageHeight ∧ ∃ pix, load g B i s = some (pix, r.2.2) ∧
      r.1 = (pageOps g pix v).1 ∧ r.2.1 = ximg ++ (pageOps g pix v).2) := by
  rw [paintPage_eq_pageOps] at h
  by_cases hv : v ≥ g.pageHeight
  · left
    simp only [hv, if_true, Option.some.injEq] at h
    exact ⟨hv, h.symm⟩
  · right
    simp only [hv, if_false] at h
    cases hl : load g B i s with
    | none => simp [hl] at h
    | some q =>
      obtain ⟨pix, s1⟩ := q
      simp only [hl, Option.map_some', Option.some.injEq] at h
      subst h
      exact ⟨by omega, pix, rfl, rfl, rfl⟩

theorem paintPage_frame_of_some (g : Params) (B : Backend) (ximg : XImage) (i v : Int)
    (s : State) (r : Int × XImage × State) (h : paintPage g B ximg i v s = some r) :
    r.2.2.currentPage = s.currentPage ∧ r.2.2.currentTop = s.currentTop ∧
      r.2.2.numInput = s.numInput ∧ r.2.2.document = s.document ∧
      ∀ j, j ≠ i → r.2.2.cache j = s.cache j := by
  rcases paintPage_some g B ximg i v s r h with ⟨-, rfl⟩ | ⟨-, pix, hl, -, -⟩
  · exact ⟨rfl, rfl, rfl, rfl, fun _ _ => rfl⟩
  · obtain ⟨a, b, c, d⟩ := load_frame_of_some g B i s r.2.2 pix hl
    exact ⟨a, b, c, d, load_cache_elsewhere g B i s r.2.2 pix hl⟩

theorem paintPage_again (g : Params) (B : Backend) (hdet : B.Deterministic) (ximg : XImage)
    (i v : Int) (s t : State) (r : Int × XImage × State)
    (h : paintPage g B ximg i v s = some r)
    (hcache : t.cache i = r.2.2.cache i) (hdoc : t.document = s.document) :
    ∃ ops t1, r.2.1 = ximg ++ ops ∧
      (∀ ximg2, paintPage g B ximg2 i v t = some (r.1, ximg2 ++ ops, t1)) ∧
      t1.cache = t.cache ∧ t1.document = t.document ∧ t1.currentPage = t.currentPage ∧
      t1.currentTop = t.currentTop ∧ t1.numInput = t.numInput := by
  rcases paintPage_some g B ximg i v s r h with ⟨hv, rfl⟩ | ⟨hv, pix, hl, h1, h2⟩
  · refine ⟨[], t, by simp, ?_, rfl, rfl, rfl, rfl, rfl⟩
    intro ximg2
    rw [paintPage_eq_pageOps]
    have hv2 : v ≥ g.pageHeight := hv
    simp [hv2]
  · obtain ⟨t1, ht1, hc1, hd1, hp1, htop1, hn1⟩ :=
      load_again g B hdet i s r.2.2 t pix hl hcache hdoc
    refine ⟨(pageOps g pix v).2, t1, h2, ?_, hc1, hd1, hp1, htop1, hn1⟩
    intro ximg2
    rw [paintPage_eq_pageOps]
    have hv2 : ¬ v ≥ g.pageHeight := by omega
    simp only [hv2, if_false, ht1, Option.map_some', h1]

theorem paintClamp_frame (s : State) :
    (paintClamp s).cache = s.cache ∧ (paintClamp s).document = s.document ∧
      (paintClamp s).numInput = s.numInput ∧ (paintClamp s).world = s.world := by
  by_cases c1 : s.currentTop < 0 <;> by_cases c2 : s.currentPage < 0 <;>
    simp [paintClamp, c1, c2]

theorem paintClamp_of_nonneg (s : State) (hp : 0 ≤ s.currentPage) (ht : 0 ≤ s.currentTop) :
    paintClamp s = s := by
  have c1 : ¬ s.currentTop < 0 := by omega
  have c2 : ¬ s.currentPage < 0 := by omega
  simp [paintClamp, c1, c2]

theorem paint_some (g : Params) (B : Backend) (ximg : XImage) (s : State)
    (r : (Int × Int) × XImage × State) (h : paint g B ximg s = some r) :
    ∃ ht x1 s1, paintPage g B ximg (paintClamp s).currentPage (-(paintClamp s).currentTop)
        (paintClamp s) = some (ht, x1, s1) ∧ r.1 = (0, 0) ∧
      (((ht ≥ 0 ∧ ht + pageGap - s1.currentTop < g.winHeight) ∧
          ∃ h2, paintPage g B
            (x1 ++ [{ img := Image.plain (gapImg g), x := 0, y := ht - s1.currentTop }])
            (s1.currentPage + 1) (-s1.currentTop + ht + pageGap) s1 = some (h2, r.2.1, r.2.2))
        ∨ (¬ (ht ≥ 0 ∧ ht + pageGap - s1.currentTop < g.winHeight) ∧ r.2.1 = x1 ∧ r.2.2 = s1)) := by
  unfold paint at h
  cases h1 : paintPage g B ximg (paintClamp s).currentPage (-(paintClamp s).currentTop)
      (paintClamp s) with
  | none => simp [h1] at h
  | some q =>
    obtain ⟨ht, x1, s1⟩ := q
    simp only [h1] at h
    refine ⟨ht, x1, s1, rfl, ?_⟩
    by_cases hc : ht ≥ 0 ∧ ht + pageGap - s1.currentTop < g.winHeight
    · simp only [hc, and_self, if_true] at h
      cases h2 : paintPage g B
          (x1 ++ [{ img := Image.plain (gapImg g), x := 0, y := ht - s1.currentTop }])
          (s1.currentPage + 1) (-s1.currentTop + ht + pageGap) s1 with
      | none => simp [h2] at h
      | some q2 =>
        obtain ⟨hh, x3, s2⟩ := q2
        simp only [h2, Option.some.injEq] at h
        subst h
        exact ⟨rfl, Or.inl ⟨hc, hh, rfl⟩⟩
    · simp only [hc, if_false, Option.some.injEq] at h
      subst h
      exact ⟨rfl, Or.inr ⟨hc, rfl, rfl⟩⟩

theorem paint_frame_of_some (g : Params) (B : Backend) (ximg : XImage) (s : State)
    (r : (Int × Int) × XImage × State) (h : paint g B ximg s = some r) :
    r.1 = (0, 0) ∧ r.2.2.currentPage = (paintClamp s).currentPage ∧
      r.2.2.currentTop = (paintClamp s).currentTop ∧ r.2.2.numInput = s.numInput ∧
      r.2.2.document = s.document := by
  obtain ⟨ht, x1, s1, h1, hr, hcase⟩ := paint_some g B ximg s r h
  obtain ⟨a1, b1, c1, d1, -⟩ := paintPage_frame_of_some g B _ _ _ _ _ h1
  obtain ⟨-, e2, e3, -⟩ := paintClamp_frame s
  simp only at a1 b1 c1 d1
  rcases hcase with ⟨-, hh2, hp2⟩ | ⟨-, -, hs⟩
  · obtain ⟨a2, b2, c2, d2, -⟩ := paintPage_frame_of_some g B _ _ _ _ _ hp2
    simp only at a2 b2 c2 d2
    exact ⟨hr, by rw [a2, a1], by rw [b2, b1], by rw [c2, c1, e3], by rw [d2, d1, e2]⟩
  · rw [hs]
    exact ⟨hr, a1, b1, by rw [c1, e3], by rw [d1, e2]⟩

theorem paint_again (g : Params) (B : Backend) (hdet : B.Deterministic) (ximg : XImage)
    (s : State) (r : (Int × Int) × XImage × State) (h : paint g B ximg s = some r) :
    ∃ ops, r.2.1 = ximg ++ ops ∧
      ∀ ximg2, ∃ s2, paint g B ximg2 r.2.2 = some ((0, 0), ximg2 ++ ops, s2) ∧
        s2.currentPage = r.2.2.currentPage ∧ s2.currentTop = r.2.2.currentTop ∧
        s2.cache = r.2.2.cache := by
  obtain ⟨ht, x1, s1, h1, -, hcase⟩ := paint_some g B ximg s r h
  obtain ⟨hp0, ht0⟩ := paintClamp_nonneg s
  obtain ⟨a1, b1, -, d1, e1⟩ := paintPage_frame_of_some g B _ _ _ _ _ h1
  try simp only at a1 b1 d1 e1
  rcases hcase with ⟨hc, hh2, hp2⟩ | ⟨hc, hx, hs⟩
  · obtain ⟨a2, b2, -, d2, e2⟩ := paintPage_frame_of_some g B _ _ _ _ _ hp2
    try simp only at a2 b2 d2 e2
    have hclamp : paintClamp r.2.2 = r.2.2 :=
      paintClamp_of_nonneg r.2.2 (by omega) (by omega)
    obtain ⟨ops1, t1, hx1, hpaint1, tc1, td1, tp1, tt1, -⟩ :=
      paintPage_again g B hdet ximg _ _ (paintClamp s) r.2.2 _ h1
        (e2 _ (by omega)) (by rw [d2, d1])
    try simp only at hx1 hpaint1
    obtain ⟨ops2, t2, hx2, hpaint2, tc2, -, tp2, tt2, -⟩ :=
      paintPage_again g B hdet _ _ _ s1 t1 _ hp2 (by rw [tc1]) (by rw [td1, d2])
    try simp only at hx2 hpaint2
    refine ⟨ops1 ++ [{ img := Image.plain (gapImg g), x := 0, y := ht - s1.currentTop }] ++ ops2,
      ?_, ?_⟩
    · rw [hx2, hx1]
      simp
    · intro ximg2
      have e1p : r.2.2.currentPage = (paintClamp s).currentPage := by rw [a2, a1]
      have e1t : r.2.2.currentTop = (paintClamp s).currentTop := by rw [b2, b1]
      have hc2 : ht ≥ 0 ∧ ht + pageGap - t1.currentTop < g.winHeight := by
        rw [tt1, b2]; exact hc
      have ep : t1.currentPage + 1 = s1.currentPage + 1 := by rw [tp1, a2]
      have et : -t1.currentTop + ht + pageGap = -s1.currentTop + ht + pageGap := by
        rw [tt1, b2]
      have eg : ht - t1.currentTop = ht - s1.currentTop := by rw [tt1, b2]
      refine ⟨t2, ?_, by rw [tp2, tp1], by rw [tt2, tt1], by rw [tc2, tc1]⟩
      unfold paint
      simp only [hclamp, e1p, e1t, hpaint1 ximg2, hc2, and_self, if_true, ep, et, eg, hpaint2,
        List.append_assoc]
  · have hclamp : paintClamp r.2.2 = r.2.2 :=
      paintClamp_of_nonneg r.2.2 (by rw [hs]; omega) (by rw [hs]; omega)
    obtain ⟨ops1, t1, hx1, hpaint1, tc1, -, tp1, tt1, -⟩ :=
      paintPage_again g B hdet ximg _ _ (paintClamp s) r.2.2 _ h1
        (by rw [hs]) (by rw [hs, d1])
    try simp only at hx1 hpaint1
    refine ⟨ops1, by rw [hx, hx1], ?_⟩
    intro ximg2
    have e1p : r.2.2.currentPage = (paintClamp s).currentPage := by rw [hs, a1]
    have e1t : r.2.2.currentTop = (paintClamp s).currentTop := by rw [hs, b1]
    have hc2 : ¬ (ht ≥ 0 ∧ ht + pageGap - t1.currentTop < g.winHeight) := by
      rw [tt1, hs]; exact hc
    refine ⟨t1, ?_, tp1, tt1, tc1⟩
    unfold paint
    simp only [hclamp, e1p, e1t, hpaint1 ximg2, hc2, if_false]

/-- C11: for every state and every deterministic backend (and a geometry in which a render
call is possible), `paint` returns, and a second `paint` right after it returns and issues the
same sequence of `XDraw` calls (same buffers, crop rectangles and destination rows) as the
first, leaving `currentPage`, `currentTop` and the cache unchanged. -/
theorem paint_idempotent (g : Params) (B : Backend) (ximg : XImage) (s : State)
    (hH : 0 < g.pageHeight) (hW : 0 < g.winWidth) (hdet : B.Deterministic) :
    ∃ ops s1, paint g B ximg s = some ((0, 0), ximg ++ ops, s1) ∧
      ∀ ximg2, ∃ s2, paint g B ximg2 s1 = some ((0, 0), ximg2 ++ ops, s2) ∧
        s2.currentPage = s1.currentPage ∧ s2.currentTop = s1.currentTop ∧
        s2.cache = s1.cache := by
  obtain ⟨r, hr, h0, -⟩ := paint_frame g B ximg s (mul_pos hW hH)
  obtain ⟨ops, hops, hagain⟩ := paint_again g B hdet ximg s r hr
  obtain ⟨r1, x, s1⟩ := r
  try simp only at h0 hops hagain
  subst h0
  subst hops
  exact ⟨ops, s1, hr, hagain⟩

/-- Witness for C11: the state `(-1, 7)` on pages of height 10, with a backend whose answers
do not depend on the log. -/
theorem paint_idempotent_witness :
    ∃ ops s1, paint smallParams okBackend [] (stateAt (-1) 7) = some ((0, 0), [] ++ ops, s1) ∧
      ∀ ximg2, ∃ s2, paint smallParams okBackend ximg2 s1 = some ((0, 0), ximg2 ++ ops, s2) ∧
        s2.currentPage = s1.currentPage ∧ s2.currentTop = s1.currentTop ∧
        s2.cache = s1.cache :=
  paint_idempotent smallParams okBackend [] (stateAt (-1) 7) (by decide) (by decide)
    (fun _ _ _ _ _ _ _ => ⟨rfl, fun _ => rfl⟩)

/-! ## The input router -/

theorem keypress_scroll (g : Params) (B : Backend) (s : State) (k : Nat) (delta : Int)
    (hg : 0 < g.winWidth * g.pageHeight)
    (hk : keypress g B k s = (updatePosition g B delta s).map (fun s1 => (1, s1))) :
    ∃ s1, updatePosition g B delta s = some s1 ∧ keypress g B k s = some (1, s1) ∧
      s1.numInput = s.numInput := by
  obtain ⟨s1, h1, hn, -⟩ := updatePosition_spec g B delta s hg
  exact ⟨s1, h1, by rw [hk, h1]; rfl, hn⟩

/-- C12: with `positionDelta = 200`, button codes 4 and 5 act as `updatePosition(-200)` and
`updatePosition(200)`; key codes 30/40 as `updatePosition(∓3*200)`, 111/116 as
`updatePosition(∓2*200)`, 113/114 as `updatePosition(∓200)`, each returning 1; key code 24 returns
-1 with the state unchanged; every other button code, and every key code that is not a digit key,
the confirm key or one of the above, returns 0 and leaves the whole state unchanged. -/
theorem input_mapping (g : Params) (B : Backend) (s : State) (x y : Int)
    (hH : 0 < g.pageHeight) (hW : 0 < g.winWidth) :
    positionDelta = 200 ∧
    (∃ s1, updatePosition g B (-200) s = some s1 ∧ button g B 4 x y s = some (1, s1)) ∧
    (∃ s1, updatePosition g B 200 s = some s1 ∧ button g B 5 x y s = some (1, s1)) ∧
    (∀ d, d ≠ 4 → d ≠ 5 → button g B d x y s = some (0, s)) ∧
    (∃ s1, updatePosition g B (-3 * 200) s = some s1 ∧ keypress g B 30 s = some (1, s1)) ∧
    (∃ s1, updatePosition g B (3 * 200) s = some s1 ∧ keypress g B 40 s = some (1, s1)) ∧
    (∃ s1, updatePosition g B (-2 * 200) s = some s1 ∧ keypress g B 111 s = some (1, s1)) ∧
    (∃ s1, updatePosition g B (2 * 200) s = some s1 ∧ keypress g B 116 s = some (1, s1)) ∧
    (∃ s1, updatePosition g B (-200) s = some s1 ∧ keypress g B 113 s = some (1, s1)) ∧
    (∃ s1, updatePosition g B 200 s = some s1 ∧ keypress g B 114 s = some (1, s1)) ∧
    keypress g B 24 s = some (-1, s) ∧
    (∀ k, ¬ (10 ≤ k ∧ k ≤ 19) → k ∉ [24, 36, 30, 40, 111, 116, 113, 114] →
      keypress g B k s = some (0, s)) := by
  have hg := mul_pos hW hH
  refine ⟨rfl, ?_, ?_, ?_, ?_, ?_, ?_, ?_, ?_, ?_, rfl, ?_⟩
  · obtain ⟨s1, h1, -⟩ := updatePosition_spec g B (-200) s hg
    refine ⟨s1, h1, ?_⟩
    have : button g B 4 x y s = (updatePosition g B (-200) s).map (fun s1 => (1, s1)) := rfl
    rw [this, h1]; rfl
  · obtain ⟨s1, h1, -⟩ := updatePosition_spec g B 200 s hg
    refine ⟨s1, h1, ?_⟩
    have : button g B 5 x y s = (updatePosition g B 200 s).map (fun s1 => (1, s1)) := rfl
    rw [this, h1]; rfl
  · intro d h4 h5
    simp [button, h4, h5]
  · obtain ⟨s1, h1, h2, -⟩ := keypress_scroll g B s 30 (-3 * 200) hg rfl
    exact ⟨s1, h1, h2⟩
  · obtain ⟨s1, h1, h2, -⟩ := keypress_scroll g B s 40 (3 * 200) hg rfl
    exact ⟨s1, h1, h2⟩
  · obtain ⟨s1, h1, h2, -⟩ := keypress_scroll g B s 111 (-2 * 200) hg rfl
    exact ⟨s1, h1, h2⟩
  · obtain ⟨s1, h1, h2, -⟩ := keypress_scroll g B s 116 (2 * 200) hg rfl
    exact ⟨s1, h1, h2⟩
  · obtain ⟨s1, h1, h2, -⟩ := keypress_scroll g B s 113 (-200) hg rfl
    exact ⟨s1, h1, h2⟩
  · obtain ⟨s1, h1, h2, -⟩ := keypress_scroll g B s 114 200 hg rfl
    exact ⟨s1, h1, h2⟩
  · intro k hd hk
    simp only [List.mem_cons, List.mem_singleton, List.not_mem_nil, or_false, not_or] at hk
    obtain ⟨a, b, c, d, e, f, i, j⟩ := hk
    simp [keypress, hd, a, b, c, d, e, f, i, j]

/-- Witness for C12: the state `(2, 5)` on pages of height 10. -/
theorem input_mapping_witness :
    positionDelta = 200 ∧
    (∃ s1, updatePosition smallParams okBackend (-200) (stateAt 2 5) = some s1 ∧
      button smallParams okBackend 4 0 0 (stateAt 2 5) = some (1, s1)) ∧
    (∃ s1, updatePosition smallParams okBackend 200 (stateAt 2 5) = some s1 ∧
      button smallParams okBackend 5 0 0 (stateAt 2 5) = some (1, s1)) ∧
    (∀ d, d ≠ 4 → d ≠ 5 → button smallParams okBackend d 0 0 (stateAt 2 5)
      = some (0, stateAt 2 5)) ∧
    (∃ s1, updatePosition smallParams okBackend (-3 * 200) (stateAt 2 5) = some s1 ∧
      keypress smallParams okBackend 30 (stateAt 2 5) = some (1, s1)) ∧
    (∃ s1, updatePosition smallParams okBackend (3 * 200) (stateAt 2 5) = some s1 ∧
      keypress smallParams okBackend 40 (stateAt 2 5) = some (1, s1)) ∧
    (∃ s1, updatePosition smallParams okBackend (-2 * 200) (stateAt 2 5) = some s1 ∧
      keypress smallParams okBackend 111 (stateAt 2 5) = some (1, s1)) ∧
    (∃ s1, updatePosition smallParams okBackend (2 * 200) (stateAt 2 5) = some s1 ∧
      keypress smallParams okBackend 116 (stateAt 2 5) = some (1, s1)) ∧
    (∃ s1, updatePosition smallParams okBackend (-200) (stateAt 2 5) = some s1 ∧
      keypress smallParams okBackend 113 (stateAt 2 5) = some (1, s1)) ∧
    (∃ s1, updatePosition smallParams okBackend 200 (stateAt 2 5) = some s1 ∧
      keypress smallParams okBackend 114 (stateAt 2 5) = some (1, s1)) ∧
    keypress smallParams okBackend 24 (stateAt 2 5) = some (-1, stateAt 2 5) ∧
    (∀ k, ¬ (10 ≤ k ∧ k ≤ 19) → k ∉ [24, 36, 30, 40, 111, 116, 113, 114] →
      keypress smallParams okBackend k (stateAt 2 5) = some (0, stateAt 2 5)) :=
  input_mapping smallParams okBackend (stateAt 2 5) 0 0 (by decide) (by decide)

theorem keypress_digit (g : Params) (B : Backend) (s : State) (k : Nat)
    (hk : 10 ≤ k) (hk2 : k ≤ 19) :
    keypress g B k s =
      some (0, { s with
        numInput := goInt (s.numInput * 10 + (((k - 9) % 10 : Nat) : Int)) }) := by
  have h : 10 ≤ k ∧ k ≤ 19 := ⟨hk, hk2⟩
  have e : (((k + 1) % 256 : Nat) : Int) % 10 = (((k - 9) % 10 : Nat) : Int) := by omega
  simp only [keypress, h, and_self, if_true, e]

theorem digitKey_range (d : Nat) (hd : d < 10) :
    10 ≤ digitKey d ∧ digitKey d ≤ 19 ∧ (digitKey d - 9) % 10 = d := by
  unfold digitKey
  split_ifs <;> omega

theorem keyRun_digits (g : Params) (B : Backend) :
    ∀ (ds : List Nat) (t : State), (∀ d ∈ ds, d < 10) →
      keyRun g B (ds.map digitKey) t =
        some { t with
          numInput := List.foldl (fun (a : Int) (d : Nat) => goInt (a * 10 + (d : Int)))
            t.numInput ds } := by
  intro ds
  induction ds with
  | nil => intro t _; rfl
  | cons d ds ih =>
    intro t hd
    obtain ⟨h1, h2, h3⟩ := digitKey_range d (hd d (List.mem_cons_self d ds))
    simp only [List.map_cons, keyRun, keypress_digit g B t (digitKey d) h1 h2, h3]
    rw [ih _ (fun x hx => hd x (List.mem_cons_of_mem d hx))]
    rfl

theorem goInt_step (a : Int) (d : Nat) : goInt (goInt a * 10 + (d : Int)) = goInt (a * 10 + d) := by
  unfold goInt
  omega

theorem foldl_goInt (ds : List Nat) :
    ∀ a : Int, List.foldl (fun (a : Int) (d : Nat) => goInt (a * 10 + (d : Int))) (goInt a) ds =
      goInt (List.foldl (fun (a : Int) (d : Nat) => a * 10 + (d : Int)) a ds) := by
  induction ds with
  | nil => intro a; rfl
  | cons d ds ih =>
    intro a
    simp only [List.foldl_cons]
    rw [goInt_step, ih]

theorem foldl_digits_reverse (L : List Nat) (acc : Int) :
    List.foldl (fun (a : Int) (d : Nat) => a * 10 + (d : Int)) acc L.reverse =
      acc * 10 ^ L.length + ((Nat.ofDigits 10 L : Nat) : Int) := by
  induction L with
  | nil => simp
  | cons d L ih =>
    rw [List.reverse_cons, List.foldl_append, ih, Nat.ofDigits_cons]
    simp only [List.foldl_cons, List.foldl_nil, List.length_cons]
    push_cast
    ring

/-- C13 (amended): for every accumulator value `acc` and every digit key code `k` in 10..19, with
digit `d = (k - 9) mod 10`, `keypress(k)` returns 0, leaves `currentPage`, `currentTop` and the
cache unchanged and sets the accumulator to `acc * 10 + d` wrapped to a 64-bit Go `int`, which is
`acc * 10 + d` itself whenever that value is a signed 64-bit number; hence typing the decimal
digits of a positive number `n < 2^63`, most significant first, from accumulator 0 leaves the
accumulator equal to `n`. -/
theorem digit_accumulation (g : Params) (B : Backend) (s : State) (k : Nat)
    (hk : 10 ≤ k) (hk2 : k ≤ 19) :
    (∃ s1, keypress g B k s = some (0, s1) ∧
      s1.numInput = goInt (s.numInput * 10 + (((k - 9) % 10 : Nat) : Int)) ∧
      (FitsGoInt (s.numInput * 10 + (((k - 9) % 10 : Nat) : Int)) →
        s1.numInput = s.numInput * 10 + (((k - 9) % 10 : Nat) : Int)) ∧
      s1.currentPage = s.currentPage ∧ s1.currentTop = s.currentTop ∧ s1.cache = s.cache) ∧
    (∀ (n : Nat) (t : State), 0 < n → (n : Int) < 9223372036854775808 → t.numInput = 0 →
      ∃ t1, keyRun g B (digitKeys n) t = some t1 ∧ t1.numInput = (n : Int) ∧
        t1.currentPage = t.currentPage ∧ t1.currentTop = t.currentTop ∧
        t1.cache = t.cache) := by
  constructor
  · exact ⟨_, keypress_digit g B s k hk hk2, rfl, fun h => goInt_of_fits _ h, rfl, rfl, rfl⟩
  · intro n t _ hn ht
    have hlt : ∀ d ∈ (Nat.digits 10 n).reverse, d < 10 := by
      intro d hd
      exact Nat.digits_lt_base (by norm_num) (List.mem_reverse.mp hd)
    refine ⟨_, keyRun_digits g B _ t hlt, ?_, rfl, rfl, rfl⟩
    simp only
    have h0 : t.numInput = goInt 0 := by rw [ht]; rfl
    rw [h0, foldl_goInt, foldl_digits_reverse, Nat.ofDigits_digits]
    simp only [zero_mul, zero_add]
    exact goInt_of_fits _ ⟨by omega, hn⟩

/-- Witness for C13 (amended): key code 12 (digit 3) on accumulator 4 gives 43; the codes typed
for 120 are 10, 11, 19. -/
theorem digit_accumulation_witness :
    digitKeys 120 = [10, 11, 19] ∧
    (∃ s1, keypress smallParams okBackend 12 { stateAt 0 0 with numInput := 4 } = some (0, s1) ∧
      s1.numInput = 43) ∧
    (∃ t1, keyRun smallParams okBackend (digitKeys 120) (stateAt 0 0) = some t1 ∧
      t1.numInput = 120) := by
  obtain ⟨⟨s1, h1, -, h2, -⟩, hrun⟩ :=
    digit_accumulation smallParams okBackend { stateAt 0 0 with numInput := 4 } 12
      (by decide) (by decide)
  obtain ⟨t1, h3, h4, -⟩ := hrun 120 (stateAt 0 0) (by decide) (by decide) rfl
  refine ⟨by simp [digitKeys, digitKey], ⟨s1, h1, ?_⟩, ⟨t1, h3, ?_⟩⟩
  · rw [h2 (by decide)]; rfl
  · rw [h4]; rfl

set_option maxRecDepth 100000 in
/-- C13 fails as stated: the accumulator is a 64-bit Go `int`.  Eighteen keys `'9'` (code 18)
from accumulator 0 leave 999999999999999999; the nineteenth leaves -8446744073709551617, not
`999999999999999999 * 10 + 9`. -/
theorem digit_accumulation_counterexample :
    keyRun smallParams okBackend (List.replicate 18 18) (stateAt 0 0)
      = some { stateAt 0 0 with numInput := 999999999999999999 } ∧
    keypress smallParams okBackend 18 { stateAt 0 0 with numInput := 999999999999999999 }
      = some (0, { stateAt 0 0 with numInput := -8446744073709551617 }) ∧
    (0 : Int) ≤ 999999999999999999 ∧
    (-8446744073709551617 : Int) ≠ 999999999999999999 * 10 + 9 :=
  ⟨rfl, rfl, by decide, by decide⟩

theorem keypress_numInput (g : Params) (B : Backend) (s : State) (k : Nat)
    (hg : 0 < g.winWidth * g.pageHeight) (hk : ¬ (10 ≤ k ∧ k ≤ 19)) :
    ∃ r s1, keypress g B k s = some (r, s1) ∧
      ((k = 36 ∧ 0 < s.numInput) → s1.numInput = 0) ∧
      (¬ (k = 36 ∧ 0 < s.numInput) → s1.numInput = s.numInput) := by
  by_cases h36 : k = 36
  · subst h36
    by_cases hn : 0 < s.numInput
    · have hn2 : s.numInput > 0 := hn
      obtain ⟨d, s1, hl, -, -, hnum, -⟩ := load_frame g B s.numInput s hg
      by_cases hlen : d.length > 0
      · refine ⟨1, _, by simp only [keypress, hn2, hl, hlen]; rfl, fun _ => rfl, ?_⟩
        intro h; exact absurd ⟨rfl, hn⟩ h
      · refine ⟨1, _, by simp only [keypress, hn2, hl, hlen]; rfl, fun _ => rfl, ?_⟩
        intro h; exact absurd ⟨rfl, hn⟩ h
    · have hn2 : ¬ s.numInput > 0 := hn
      refine ⟨0, s, by simp only [keypress, hn2]; rfl, ?_, fun _ => rfl⟩
      rintro ⟨-, h⟩; exact absurd h hn
  · have frame : ∀ delta, keypress g B k s = (updatePosition g B delta s).map (fun s1 => (1, s1)) →
        ∃ r s1, keypress g B k s = some (r, s1) ∧
          ((k = 36 ∧ 0 < s.numInput) → s1.numInput = 0) ∧
          (¬ (k = 36 ∧ 0 < s.numInput) → s1.numInput = s.numInput) := by
      intro delta hmap
      obtain ⟨s1, -, h2, hnum⟩ := keypress_scroll g B s k delta hg hmap
      exact ⟨1, s1, h2, fun h => absurd h.1 h36, fun _ => hnum⟩
    by_cases h24 : k = 24
    · subst h24
      exact ⟨-1, s, rfl, fun h => absurd h.1 h36, fun _ => rfl⟩
    by_cases h30 : k = 30
    · subst h30; exact frame (-3 * positionDelta) rfl
    by_cases h40 : k = 40
    · subst h40; exact frame (3 * positionDelta) rfl
    by_cases h111 : k = 111
    · subst h111; exact frame (-2 * positionDelta) rfl
    by_cases h116 : k = 116
    · subst h116; exact frame (2 * positionDelta) rfl
    by_cases h113 : k = 113
    · subst h113; exact frame (-positionDelta) rfl
    by_cases h114 : k = 114
    · subst h114; exact frame positionDelta rfl
    refine ⟨0, s, ?_, fun h => absurd h.1 h36, fun _ => rfl⟩
    simp [keypress, hk, h24, h36, h30, h40, h111, h116, h113, h114]

/-- C14 (amended): for every state and every key code that is not a digit key (and a geometry
in which a render call is possible), `keypress` returns; the accumulator is 0 afterwards when
the key is the confirm key (36) and the accumulator was positive, and it is unchanged in every
other case, so digits typed before a navigation key stay in the accumulator. -/
theorem keypress_accumulator (g : Params) (B : Backend) (s : State) (k : Nat)
    (hH : 0 < g.pageHeight) (hW : 0 < g.winWidth) (hk : ¬ (10 ≤ k ∧ k ≤ 19)) :
    ∃ r s1, keypress g B k s = some (r, s1) ∧
      ((k = 36 ∧ 0 < s.numInput) → s1.numInput = 0) ∧
      (¬ (k = 36 ∧ 0 < s.numInput) → s1.numInput = s.numInput) :=
  keypress_numInput g B s k (mul_pos hW hH) hk

/-- Witness for C14 (amended): key code 114 with accumulator 5. -/
theorem keypress_accumulator_witness :
    ∃ r s1, keypress smallParams okBackend 114 { stateAt 0 0 with numInput := 5 }
        = some (r, s1) ∧
      (((114 : Nat) = 36 ∧ 0 < ({ stateAt 0 0 with numInput := 5 } : State).numInput) →
        s1.numInput = 0) ∧
      (¬ ((114 : Nat) = 36 ∧ 0 < ({ stateAt 0 0 with numInput := 5 } : State).numInput) →
        s1.numInput = ({ stateAt 0 0 with numInput := 5 } : State).numInput) :=
  keypress_accumulator smallParams okBackend { stateAt 0 0 with numInput := 5 } 114
    (by decide) (by decide) (by decide)

/-- C14 fails as stated: after the digit key 14 (digit 5) the
accumulator is 5; the navigation key 114 returns handled and leaves it at 5, not 0; the digit
key 10 then makes it 51 and the confirm key jumps to page 51. -/
theorem keypress_accumulator_counterexample :
    ∃ s1 s2 s3 s4,
      keypress smallParams okBackend 14 (stateAt 0 0) = some (0, s1) ∧ s1.numInput = 5 ∧
      keypress smallParams okBackend 114 s1 = some (1, s2) ∧ s2.numInput = 5 ∧
      s2.numInput ≠ 0 ∧
      keypress smallParams okBackend 10 s2 = some (0, s3) ∧ s3.numInput = 51 ∧
      keypress smallParams okBackend 36 s3 = some (1, s4) ∧ s4.pos = (51, 0) :=
  ⟨_, _, _, _, rfl, rfl, rfl, rfl, by decide, rfl, rfl, rfl, rfl⟩

/-! ## Behaviour claims: conservation, normalization, definedness -/

theorem updatePosition_of_some (g : Params) (B : Backend) (d : Int) (s s1 : State)
    (h : updatePosition g B d s = some s1) :
    (g.pageHeight < s.currentTop + d ∧
      s1.currentPage = s.currentPage + 1 ∧ s1.currentTop = s.currentTop + d - g.pageHeight) ∨
    (¬ g.pageHeight < s.currentTop + d ∧ s.currentTop + d < 0 ∧
      s1.currentPage = s.currentPage - 1 ∧ s1.currentTop = g.pageHeight + (s.currentTop + d)) ∨
    (¬ g.pageHeight < s.currentTop + d ∧ ¬ s.currentTop + d < 0 ∧
      s1.currentPage = s.currentPage ∧ s1.currentTop = s.currentTop + d) := by
  unfold updatePosition at h
  by_cases h1 : g.pageHeight < s.currentTop + d
  · left
    have h1b : s.currentTop + d > g.pageHeight := h1
    simp only [h1b, if_true, Option.some.injEq] at h
    subst h
    exact ⟨h1, rfl, rfl⟩
  · right
    have h1b : ¬ s.currentTop + d > g.pageHeight := h1
    by_cases h2 : s.currentTop + d < 0
    · left
      simp only [h1b, if_false, h2, if_true] at h
      cases hl : load g B (s.currentPage - 1) { s with currentTop := s.currentTop + d } with
      | none => simp [hl] at h
      | some q =>
        obtain ⟨dd, s2⟩ := q
        obtain ⟨a, b, -, -⟩ := load_frame_of_some g B _ _ _ _ hl
        simp only [hl, Option.some.injEq] at h
        subst h
        exact ⟨h1, h2, by simp [a], by simp [b]⟩
    · right
      simp only [h1b, if_false, h2, Option.some.injEq] at h
      subst h
      exact ⟨h1, h2, rfl, rfl⟩

/-- C18: for every state, every `pageHeight` and every integer `delta`, whenever
`updatePosition(delta)` returns, `currentPage * pageHeight + currentTop` equals its value before
the call plus `delta`, and `currentPage` changes by at most 1 in absolute value; and the call
does return in every geometry in which a render call is possible. -/
theorem updatePosition_conserves (g : Params) (B : Backend) (delta : Int) (s : State) :
    (∀ s1, updatePosition g B delta s = some s1 →
      s1.currentPage * g.pageHeight + s1.currentTop =
        s.currentPage * g.pageHeight + s.currentTop + delta ∧
      |s1.currentPage - s.currentPage| ≤ 1) ∧
    (0 < g.winWidth * g.pageHeight → ∃ s1, updatePosition g B delta s = some s1) := by
  constructor
  · intro s1 h
    rcases updatePosition_of_some g B delta s s1 h with ⟨-, hp, ht⟩ | ⟨-, -, hp, ht⟩ | ⟨-, -, hp, ht⟩
    · refine ⟨by rw [hp, ht]; ring, ?_⟩
      rw [hp]; simp
    · refine ⟨by rw [hp, ht]; ring, ?_⟩
      rw [hp]; simp
    · refine ⟨by rw [hp, ht]; ring, ?_⟩
      rw [hp]; simp
  · intro hg
    obtain ⟨s1, h, -⟩ := updatePosition_spec g B delta s hg
    exact ⟨s1, h⟩

/-- Witness for C18: delta 25 from `(3, 4)` on pages of height 10 ends at `(4, 19)`, the same
absolute offset `34 + 25`. -/
theorem updatePosition_conserves_witness :
    ∃ s1, updatePosition smallParams okBackend 25 (stateAt 3 4) = some s1 ∧ s1.pos = (4, 19) ∧
      s1.currentPage * smallParams.pageHeight + s1.currentTop =
        (stateAt 3 4).currentPage * smallParams.pageHeight + (stateAt 3 4).currentTop + 25 ∧
      |s1.currentPage - (stateAt 3 4).currentPage| ≤ 1 :=
  ⟨_, rfl, rfl, (updatePosition_conserves smallParams okBackend 25 (stateAt 3 4)).1 _ rfl⟩

/-- C19: for every state, whenever `paint` returns, `currentPage ≥ 0` and `currentTop ≥ 0`
afterwards (a negative `currentTop` has become 0, a negative `currentPage` has become `(0, 0)`),
and a state that already has `currentPage ≥ 0` and `currentTop ≥ 0` keeps both; and `paint` does
return in every geometry in which a render call is possible. -/
theorem paint_normalizes (g : Params) (B : Backend) (ximg : XImage) (s : State) :
    (∀ r, paint g B ximg s = some r →
      0 ≤ r.2.2.currentPage ∧ 0 ≤ r.2.2.currentTop ∧
      (s.currentTop < 0 → r.2.2.currentTop = 0) ∧
      (s.currentPage < 0 → r.2.2.currentPage = 0 ∧ r.2.2.currentTop = 0) ∧
      (0 ≤ s.currentPage → 0 ≤ s.currentTop →
        r.2.2.currentPage = s.currentPage ∧ r.2.2.currentTop = s.currentTop)) ∧
    (0 < g.winWidth * g.pageHeight → ∃ r, paint g B ximg s = some r) := by
  constructor
  · intro r h
    obtain ⟨-, hp, ht, -, -⟩ := paint_frame_of_some g B ximg s r h
    obtain ⟨n1, n2⟩ := paintClamp_nonneg s
    refine ⟨by omega, by omega, ?_, ?_, ?_⟩
    · intro hneg
      rw [ht]
      by_cases c2 : s.currentPage < 0 <;> simp [paintClamp, hneg, c2]
    · intro hneg
      obtain ⟨a, b⟩ := paintClamp_of_neg_page s hneg
      exact ⟨by omega, by omega⟩
    · intro h1 h2
      rw [hp, ht, paintClamp_of_nonneg s h1 h2]
      exact ⟨rfl, rfl⟩
  · intro hg
    obtain ⟨r, h, -⟩ := paint_frame g B ximg s hg
    exact ⟨r, h⟩

/-- Witness for C19: `paint` at `(-1, 7)` on pages of height 10 returns and ends at `(0, 0)`. -/
theorem paint_normalizes_witness :
    ∃ r, paint smallParams okBackend [] (stateAt (-1) 7) = some r ∧
      0 ≤ r.2.2.currentPage ∧ 0 ≤ r.2.2.currentTop ∧
      r.2.2.currentPage = 0 ∧ r.2.2.currentTop = 0 := by
  have hw := paint_normalizes smallParams okBackend [] (stateAt (-1) 7)
  obtain ⟨r, hr⟩ := hw.2 (by decide)
  obtain ⟨a, b, -, c, -⟩ := hw.1 r hr
  exact ⟨r, hr, a, b, c (by decide)⟩

/-- C20: `refresh` returns exactly on the non-empty signals: on the empty string the slice
`str[:len(str)-1]` is out of range and `refresh` panics; on every non-empty string it returns,
by the reload branch when the text without its last character has no `'@'` and by the jump
branch otherwise. -/
theorem refresh_defined (g : Params) (B : Backend) (ParseInt : GoString → Int) (str : GoString)
    (s : State) :
    ((refresh g B ParseInt str s).isSome = true ↔ str ≠ []) ∧
    refresh g B ParseInt [] s = none ∧
    (str ≠ [] →
      ('@' ∉ str.take (str.length - 1) ∧
        refresh g B ParseInt str s =
          some { s with document := (initPDFFile B (closePDF s.world s.document) g.pdfFile).1.1,
                        cache := fun _ => none,
                        world := (initPDFFile B (closePDF s.world s.document) g.pdfFile).2 }) ∨
      ('@' ∈ str.take (str.length - 1) ∧
        refresh g B ParseInt str s =
          some { s with
            currentPage := ParseInt ((stringsSplit '@' (str.take (str.length - 1))).getD 1 []),
            currentTop := 0 })) := by
  have hcases : str ≠ [] →
      ('@' ∉ str.take (str.length - 1) ∧
        refresh g B ParseInt str s =
          some { s with document := (initPDFFile B (closePDF s.world s.document) g.pdfFile).1.1,
                        cache := fun _ => none,
                        world := (initPDFFile B (closePDF s.world s.document) g.pdfFile).2 }) ∨
      ('@' ∈ str.take (str.length - 1) ∧
        refresh g B ParseInt str s =
          some { s with
            currentPage := ParseInt ((stringsSplit '@' (str.take (str.length - 1))).getD 1 []),
            currentTop := 0 }) := by
    intro hne
    by_cases hat : '@' ∈ str.take (str.length - 1)
    · exact Or.inr ⟨hat, refresh_jump g B ParseInt str s hne hat⟩
    · left
      refine ⟨hat, ?_⟩
      have h0 : ¬ str.length = 0 := fun h => hne (List.length_eq_zero.mp h)
      have h2 : (stringsSplit '@' (str.take (str.length - 1))).length < 2 :=
        (stringsSplit_length_lt_two _ _).mpr hat
      simp only [refresh, h0, if_false, h2, if_true]
  refine ⟨?_, rfl, hcases⟩
  constructor
  · intro h hnil
    rw [hnil] at h
    simp [refresh] at h
  · intro hne
    rcases hcases hne with ⟨-, h⟩ | ⟨-, h⟩ <;> rw [h] <;> rfl

/-- Witness for C20: `refresh` panics on the empty signal and returns on the signal `"x"`. -/
theorem refresh_defined_witness :
    refresh smallParams okBackend parseDecimal [] (stateAt 0 0) = none ∧
    (refresh smallParams okBackend parseDecimal "x".toList (stateAt 0 0)).isSome = true :=
  ⟨(refresh_defined smallParams okBackend parseDecimal [] (stateAt 0 0)).2.1,
   (refresh_defined smallParams okBackend parseDecimal "x".toList (stateAt 0 0)).1.mpr
     (by decide)⟩

/-! ## Table of contents and command line -/

theorem stringsSplit_getD_zero (sep : Char) (l : GoString) :
    (stringsSplit sep l).getD 0 [] = l.takeWhile (fun c => decide (c ≠ sep)) := by
  induction l with
  | nil => simp [stringsSplit]
  | cons c cs ih =>
    unfold stringsSplit
    by_cases hc : c = sep
    · simp [hc]
    · cases h : stringsSplit sep cs with
      | nil => exact absurd h (stringsSplit_ne_nil sep cs)
      | cons p ps =>
        rw [h] at ih
        simp only [List.getD_cons_zero] at ih
        simp [hc, ih]

theorem stringsSplit_getD_one (sep : Char) (l : GoString) :
    (stringsSplit sep l).getD 1 [] =
      ((l.dropWhile (fun c => decide (c ≠ sep))).drop 1).takeWhile
        (fun c => decide (c ≠ sep)) := by
  induction l with
  | nil => simp [stringsSplit]
  | cons c cs ih =>
    unfold stringsSplit
    by_cases hc : c = sep
    · have h0 := stringsSplit_getD_zero sep cs
      have hd : (c :: cs).dropWhile (fun c => decide (c ≠ sep)) = c :: cs := by
        simp [List.dropWhile, hc]
      rw [hd, if_pos hc, List.getD_cons_succ, h0]
      rfl
    · have hd : (c :: cs).dropWhile (fun c => decide (c ≠ sep)) =
          cs.dropWhile (fun c => decide (c ≠ sep)) := by
        simp [List.dropWhile, hc]
      rw [hd, if_neg hc]
      cases h : stringsSplit sep cs with
      | nil => exact absurd h (stringsSplit_ne_nil sep cs)
      | cons p ps =>
        rw [h] at ih
        rw [List.getD_cons_succ] at ih
        show ((c :: p) :: ps).getD 1 [] = _
        rw [List.getD_cons_succ]
        exact ih

theorem tocItems_eq (items : List GoString) :
    tocItems items =
      (items.filter (fun line => decide ('@' ∈ line))).map (fun line =>
        { Key := ReplaceAllString tocRe (line.takeWhile (fun c => decide (c ≠ '@'))),
          Value := ((line.dropWhile (fun c => decide (c ≠ '@'))).drop 1).takeWhile
            (fun c => decide (c ≠ '@')) }) := by
  induction items with
  | nil => rfl
  | cons item rest ih =>
    unfold tocItems
    by_cases hat : '@' ∈ item
    · have h2 : ¬ (stringsSplit '@' item).length < 2 := by
        rw [stringsSplit_length_lt_two]
        exact fun h => h hat
      simp only [h2, if_false, ih, stringsSplit_getD_zero, stringsSplit_getD_one]
      simp [hat]
    · have h2 : (stringsSplit '@' item).length < 2 :=
        (stringsSplit_length_lt_two _ _).mpr hat
      simp only [h2, if_true, ih]
      simp [hat]

theorem reLit_matches_iff (str x : GoString) : x ∈ (reLit str).matches' ↔ x = str := by
  induction str generalizing x with
  | nil =>
    simp only [reLit, RegularExpression.matches'_epsilon]
    exact Language.mem_one x
  | cons c cs ih =>
    simp only [reLit, RegularExpression.matches'_mul, RegularExpression.matches'_char]
    constructor
    · intro h
      obtain ⟨a, ha, b, hb, rfl⟩ := Language.mem_mul.mp h
      have ha2 : a = [c] := ha
      rw [ha2, (ih b).mp hb]
      rfl
    · intro h
      rw [h]
      exact Language.mem_mul.mpr ⟨[c], rfl, cs, (ih cs).mpr rfl, rfl⟩

theorem reOneOf_matches_iff (cs : List Char) (x : GoString) :
    x ∈ (reOneOf cs).matches' ↔ ∃ c ∈ cs, x = [c] := by
  induction cs with
  | nil =>
    simp only [reOneOf, RegularExpression.matches'_zero, List.not_mem_nil, false_and,
      exists_false, iff_false]
    exact fun h => h
  | cons a cs ih =>
    simp only [reOneOf, RegularExpression.matches'_add, RegularExpression.matches'_char,
      Language.mem_add, ih, List.mem_cons]
    constructor
    · rintro (h | ⟨c, hc, rfl⟩)
      · exact ⟨a, Or.inl rfl, h⟩
      · exact ⟨c, Or.inr hc, rfl⟩
    · rintro ⟨c, hc | hc, rfl⟩
      · left; rw [hc]; rfl
      · right; exact ⟨c, hc, rfl⟩

theorem flatten_singletons (x : GoString) : (x.map (fun c => [c])).flatten = x := by
  induction x with
  | nil => rfl
  | cons a x ih => simp [ih]

theorem star_reOneOf_matches_iff (cs : List Char) (x : GoString) :
    x ∈ (RegularExpression.star (reOneOf cs)).matches' ↔ ∀ c ∈ x, c ∈ cs := by
  rw [RegularExpression.matches'_star]
  constructor
  · intro h c hc
    obtain ⟨L, rfl, hL⟩ := Language.mem_kstar.mp h
    obtain ⟨y, hy, hcy⟩ := List.mem_flatten.mp hc
    obtain ⟨c2, hc2, rfl⟩ := (reOneOf_matches_iff cs y).mp (hL y hy)
    rw [List.mem_singleton] at hcy
    rw [hcy]
    exact hc2
  · intro h
    refine Language.mem_kstar.mpr ⟨x.map (fun c => [c]), (flatten_singletons x).symm, ?_⟩
    intro y hy
    obtain ⟨c, hc, rfl⟩ := List.mem_map.mp hy
    exact (reOneOf_matches_iff cs [c]).mpr ⟨c, h c hc, rfl⟩

theorem tocRe_group_matches_iff (x : GoString) :
    x ∈ (RegularExpression.char '.' * RegularExpression.star reDigit
          * RegularExpression.star reAlpha).matches' ↔
      ∃ d l, x = '.' :: (d ++ l) ∧ (∀ c ∈ d, c ∈ tocDigits) ∧ (∀ c ∈ l, c ∈ tocLetters) := by
  simp only [RegularExpression.matches'_mul, RegularExpression.matches'_char]
  constructor
  · intro h
    obtain ⟨a, ha, l, hl, rfl⟩ := Language.mem_mul.mp h
    obtain ⟨dot, hdot, d, hd, rfl⟩ := Language.mem_mul.mp ha
    have hdot2 : dot = ['.'] := hdot
    exact ⟨d, l, by rw [hdot2]; simp, (star_reOneOf_matches_iff _ d).mp hd,
      (star_reOneOf_matches_iff _ l).mp hl⟩
  · rintro ⟨d, l, rfl, hd, hl⟩
    have e : '.' :: (d ++ l) = (['.'] ++ d) ++ l := by simp
    rw [e]
    exact Language.append_mem_mul
      (Language.append_mem_mul rfl ((star_reOneOf_matches_iff _ d).mpr hd))
      ((star_reOneOf_matches_iff _ l).mpr hl)

theorem tocRe_matches_iff (m : GoString) : m ∈ tocRe.matches' ↔ IsHeadingMarker m := by
  unfold tocRe IsHeadingMarker
  simp only [RegularExpression.matches'_mul]
  constructor
  · intro h
    obtain ⟨a, ha, tail, htail, rfl⟩ := Language.mem_mul.mp h
    obtain ⟨a2, ha2, ds, hds, rfl⟩ := Language.mem_mul.mp ha
    obtain ⟨kw, hkw, star, hstar, rfl⟩ := Language.mem_mul.mp ha2
    rw [RegularExpression.matches'_star] at htail
    obtain ⟨groups, rfl, hgroups⟩ := Language.mem_kstar.mp htail
    refine ⟨kw, star, ds, groups, ?_, ?_, (star_reOneOf_matches_iff _ ds).mp hds, ?_, rfl⟩
    · simp only [RegularExpression.matches'_add, Language.mem_add, reLit_matches_iff] at hkw
      simp only [tocKeywords, List.mem_cons, List.mem_singleton, List.not_mem_nil, or_false]
      tauto
    · simp only [RegularExpression.matches'_add, Language.mem_add,
        RegularExpression.matches'_char, RegularExpression.matches'_epsilon] at hstar
      rcases hstar with h1 | h1
      · exact Or.inr h1
      · exact Or.inl ((Language.mem_one star).mp h1)
    · intro gr hgr
      exact (tocRe_group_matches_iff gr).mp (hgroups gr hgr)
  · rintro ⟨kw, star, ds, groups, hkw, hstar, hds, hgroups, rfl⟩
    refine Language.append_mem_mul (Language.append_mem_mul (Language.append_mem_mul ?_ ?_)
      ((star_reOneOf_matches_iff _ ds).mpr hds)) ?_
    · simp only [RegularExpression.matches'_add, Language.mem_add, reLit_matches_iff]
      simp only [tocKeywords, List.mem_cons, List.mem_singleton, List.not_mem_nil, or_false] at hkw
      tauto
    · simp only [RegularExpression.matches'_add, Language.mem_add,
        RegularExpression.matches'_char, RegularExpression.matches'_epsilon]
      rcases hstar with h1 | h1
      · exact Or.inr ((Language.mem_one star).mpr h1)
      · exact Or.inl h1
    · rw [RegularExpression.matches'_star]
      exact Language.mem_kstar.mpr
        ⟨groups, rfl, fun gr hgr => (tocRe_group_matches_iff gr).mpr (hgroups gr hgr)⟩

theorem ReplaceAllString_spec (re : RegularExpression Char) (label : GoString) :
    ∃ marker, label = ReplaceAllString re label ++ marker ∧
      (marker = [] ∨ marker ∈ re.matches') ∧
      ∀ p q, label = p ++ q → q ∈ re.matches' →
        (ReplaceAllString re label).length ≤ p.length := by
  induction label with
  | nil =>
    refine ⟨[], rfl, Or.inl rfl, ?_⟩
    intro p q _ _
    simp [ReplaceAllString]
  | cons c cs ih =>
    unfold ReplaceAllString
    by_cases hm : re.rmatch (c :: cs) = true
    · rw [if_pos hm]
      refine ⟨c :: cs, rfl, Or.inr ((RegularExpression.rmatch_iff_matches' _ _).mp hm), ?_⟩
      intro p q _ _
      simp
    · rw [if_neg hm]
      obtain ⟨marker, h1, h2, h3⟩ := ih
      refine ⟨marker, ?_, h2, ?_⟩
      · rw [List.cons_append, ← h1]
      · intro p q hpq hmem
        cases p with
        | nil =>
          exfalso
          simp only [List.nil_append] at hpq
          rw [← hpq] at hmem
          exact hm ((RegularExpression.rmatch_iff_matches' _ _).mpr hmem)
        | cons a p =>
          simp only [List.cons_append, List.cons.injEq] at hpq
          have := h3 p q hpq.2 hmem
          simp only [List.length_cons]
          omega

/-- C15: for every TOC text, the entry list built by `tableOfContentWidget` has exactly one entry
per newline-separated line that contains `'@'`, in line order (lines without `'@'` give none);
an entry's `Value` is the text between the line's first `'@'` and its next `'@'` or the line end;
its `Key` is the text before the first `'@'` with the trailing heading marker removed: the `Key`
is a prefix of that text, the removed suffix is empty or a heading marker (a keyword out of
appendix, section, subsection, subsubsection, chapter, an optional `'*'`, optional digits, and
dotted groups of digits and letters, which is the language of `tocRe`), and every suffix that is
a heading marker lies inside the removed part. -/
theorem toc_entries (toc : GoString) :
    tocList toc =
      ((stringsSplit '\n' toc).filter (fun line => decide ('@' ∈ line))).map (fun line =>
        { Key := ReplaceAllString tocRe (line.takeWhile (fun c => decide (c ≠ '@'))),
          Value := ((line.dropWhile (fun c => decide (c ≠ '@'))).drop 1).takeWhile
            (fun c => decide (c ≠ '@')) }) ∧
    (∀ m : GoString, m ∈ tocRe.matches' ↔ IsHeadingMarker m) ∧
    ∀ label : GoString, ∃ marker, label = ReplaceAllString tocRe label ++ marker ∧
      (marker = [] ∨ IsHeadingMarker marker) ∧
      ∀ p q, label = p ++ q → IsHeadingMarker q →
        (ReplaceAllString tocRe label).length ≤ p.length := by
  refine ⟨tocItems_eq _, tocRe_matches_iff, ?_⟩
  intro label
  obtain ⟨marker, h1, h2, h3⟩ := ReplaceAllString_spec tocRe label
  refine ⟨marker, h1, ?_, ?_⟩
  · rcases h2 with h | h
    · exact Or.inl h
    · exact Or.inr ((tocRe_matches_iff marker).mp h)
  · intro p q hpq hq
    exact h3 p q hpq ((tocRe_matches_iff q).mpr hq)

/-- Witness for C15: `"Introductionchapter1@5"` yields the entry `("Introduction", "5")`, and
`"Chapter1  1@5\nAppendix A@12\n"` yields two entries. -/
theorem toc_entries_witness :
    tocList "Introductionchapter1@5".toList
      = [{ Key := "Introduction".toList, Value := "5".toList }] ∧
    tocList "Chapter1  1@5\nAppendix A@12\n".toList
      = [{ Key := "Chapter1  1".toList, Value := "5".toList },
         { Key := "Appendix A".toList, Value := "12".toList }] ∧
    (tocList "Chapter1  1@5\nAppendix A@12\n".toList).length = 2 ∧
    tocList "Chapter1  1@5\nAppendix A@12\n".toList =
      ((stringsSplit '\n' "Chapter1  1@5\nAppendix A@12\n".toList).filter
        (fun line => decide ('@' ∈ line))).map (fun line =>
          { Key := ReplaceAllString tocRe (line.takeWhile (fun c => decide (c ≠ '@'))),
            Value := ((line.dropWhile (fun c => decide (c ≠ '@'))).drop 1).takeWhile
              (fun c => decide (c ≠ '@')) }) :=
  ⟨by decide, by decide, by decide, (toc_entries "Chapter1  1@5\nAppendix A@12\n".toList).1⟩

theorem dropWhile_ne_append (sep : Char) (t v : GoString) (ht : sep ∉ t) :
    (t ++ sep :: v).dropWhile (fun c => decide (c ≠ sep)) = sep :: v := by
  induction t with
  | nil => simp [List.dropWhile]
  | cons a t ih =>
    have ha : a ≠ sep := fun h => ht (by simp [h])
    have ht2 : sep ∉ t := fun h => ht (List.mem_cons_of_mem a h)
    have h := ih ht2
    rw [List.cons_append, List.dropWhile_cons]
    simpa [ha] using h

theorem takeWhile_ne_self (sep : Char) (v : GoString) (hv : sep ∉ v) :
    v.takeWhile (fun c => decide (c ≠ sep)) = v := by
  induction v with
  | nil => rfl
  | cons a v ih =>
    have ha : a ≠ sep := fun h => hv (by simp [h])
    have hv2 : sep ∉ v := fun h => hv (List.mem_cons_of_mem a h)
    have h := ih hv2
    rw [List.takeWhile_cons]
    simpa [ha] using h

theorem refresh_toc_signal (g : Params) (B : Backend) (ParseInt : GoString → Int)
    (t v : GoString) (s : State) (ht : '@' ∉ t) (hv : '@' ∉ v) :
    refresh g B ParseInt (t ++ "@".toList ++ v ++ "*".toList) s =
      some { s with currentPage := ParseInt v, currentTop := 0 } := by
  have htake : (t ++ "@".toList ++ v ++ "*".toList).take
      ((t ++ "@".toList ++ v ++ "*".toList).length - 1) = t ++ '@' :: v := by
    have e : (t ++ "@".toList ++ v ++ "*".toList) = (t ++ '@' :: v) ++ ['*'] := by
      simp
    have hlen : ((t ++ '@' :: v) ++ ['*']).length - 1 = (t ++ '@' :: v).length := by simp
    rw [e, hlen]
    exact List.take_left' rfl
  have hne : (t ++ "@".toList ++ v ++ "*".toList) ≠ [] := by simp
  have hat : '@' ∈ (t ++ "@".toList ++ v ++ "*".toList).take
      ((t ++ "@".toList ++ v ++ "*".toList).length - 1) := by
    rw [htake]; simp
  rw [refresh_jump g B ParseInt _ s hne hat, htake, stringsSplit_getD_one,
    dropWhile_ne_append '@' t v ht]
  simp only [List.drop_succ_cons, List.drop_zero]
  rw [takeWhile_ne_self '@' v hv]

/-- C16, the code at the failing input: for the file `a@b` the TOC widget is started with the
title `"auto-pdf-a@b-toc"`; selecting the entry of `"Intro@5"` sets the name
`"auto-pdf-a@b-toc@5*"`, and `refresh` on that signal takes the page number from the text
`"b-toc"` between the first two `'@'`, not from the entry's value `"5"`: with a parser that
reads `"5"` as 5 and `"b-toc"` as 0 the position becomes `(0, 0)`, not `(5, 0)`. -/
theorem toc_signal_title_with_at :
    tocList "Intro@5".toList = [{ Key := "Intro".toList, Value := "5".toList }] ∧
    tocSelect "auto-pdf-a@b-toc".toList (tocList "Intro@5".toList) 0
      = some "auto-pdf-a@b-toc@5*".toList ∧
    (∀ (g : Params) (B : Backend) (ParseInt : GoString → Int) (s : State),
      refresh g B ParseInt "auto-pdf-a@b-toc@5*".toList s =
        some { s with currentPage := ParseInt "b-toc".toList, currentTop := 0 }) ∧
    parseDecimal "5".toList = 5 ∧
    (∃ s1, refresh smallParams okBackend parseDecimal "auto-pdf-a@b-toc@5*".toList (stateAt 3 4)
        = some s1 ∧ s1.pos = (0, 0) ∧ s1.pos ≠ (5, 0)) := by
  refine ⟨by decide, by decide, ?_, by decide, ⟨_, rfl, by decide, by decide⟩⟩
  intro g B ParseInt s
  rw [refresh_jump g B ParseInt _ s (by decide) (by decide)]
  rfl

/-- C17 (amended): for every argument vector made of the program name, `<path>` and at most three
further arguments, with a `ParseInt` that reads the four default texts as numbers, `main` opens
the document at `<path>` with `pageWidth = 1750`, `winHeight = 1600`, `aspect = 72` and
`xoffset = 46`; the further arguments are not read. -/
theorem main_defaults (H : Host) (Args : List GoString)
    (h2 : 2 ≤ Args.length) (h6 : Args.length < 6)
    (hw : H.ParseInt "1750".toList = 1750) (hh : H.ParseInt "1600".toList = 1600)
    (ha : H.ParseInt "72".toList = 72) (hx : H.ParseInt "46".toList = 46) :
    main H Args = some
      { pageWidth := 1750, winHeight := 1600, aspect := 72, xoffset := 46,
        pageHeight := H.pageHeightOf 1750 72,
        title := "auto-pdf-".toList ++ H.Base (Args.getD 1 []),
        pdfFile := Args.getD 1 [] } := by
  have h1 : ¬ Args.length ≤ 1 := by omega
  simp only [main, h1, if_false, h6, if_true, List.getD_cons_succ, List.getD_cons_zero,
    hw, hh, ha, hx]
  norm_num

/-- Witness for C17 (amended): `xgpdf a.pdf 1000`. -/
theorem main_defaults_witness :
    main testHost ["xgpdf".toList, "a.pdf".toList, "1000".toList] = some
      { pageWidth := 1750, winHeight := 1600, aspect := 72, xoffset := 46,
        pageHeight := testHost.pageHeightOf 1750 72,
        title := "auto-pdf-".toList ++
          testHost.Base (["xgpdf".toList, "a.pdf".toList, "1000".toList].getD 1 []),
        pdfFile := ["xgpdf".toList, "a.pdf".toList, "1000".toList].getD 1 [] } :=
  main_defaults testHost ["xgpdf".toList, "a.pdf".toList, "1000".toList]
    (by decide) (by decide) (by decide) (by decide) (by decide) (by decide)

/-- C17 fails as stated: for `xgpdf a.pdf 1000` the supplied page width 1000 is a valid number
(at least 100), yet `main` opens `a.pdf` with `pageWidth = 1750`. -/
theorem main_defaults_counterexample :
    testHost.ParseInt "1000".toList = 1000 ∧
    ∃ c, main testHost ["xgpdf".toList, "a.pdf".toList, "1000".toList] = some c ∧
      c.pdfFile = "a.pdf".toList ∧ c.pageWidth = 1750 ∧ c.pageWidth ≠ 1000 :=
  ⟨by decide, _, rfl, by decide, by decide, by decide⟩

/-- With all four numeric arguments `main` keeps `os.Args` as it is, so every index is one off:
for `xgpdf a.pdf 1000 900 50 10` it opens the file `xgpdf`, reads the page width from `a.pdf`
(not a number, so the screen default `1920*7/10 = 1344`), the window height from `1000`, the
aspect from `900` and the offset from `50`. -/
theorem main_full_args_shifted :
    ∃ c, main testHost ["xgpdf".toList, "a.pdf".toList, "1000".toList, "900".toList,
        "50".toList, "10".toList] = some c ∧
      c.pdfFile = "xgpdf".toList ∧ c.pageWidth = 1344 ∧ c.winHeight = 1000 ∧
      c.aspect = 900 ∧ c.xoffset = 50 :=
  ⟨_, rfl, by decide, by decide, by decide, by decide, by decide⟩

end Xgpdf
